import Mathlib

/-!
# Verification of the DevContainer template selection and configuration engine

A shallow embedding of `src/template-manager.ts` (template catalog and
`findBestMatch`) and `src/config-generator.ts` (`analyzePrompt`,
`generateConfig`, `applyModifications`, `modifyConfiguration`) of the
`mcp-devcontainer` repository, together with theorems settling the frozen
claims about them.

Modelling conventions:
* JSON documents (`Record<string, unknown>` values produced by
  `JSON.parse`) are modelled by the inductive `Json` below; an object is an
  association list of key/value pairs in insertion order (keys produced by
  `JSON.parse` are unique, but none of the definitions relies on that).
* JavaScript property update (`o[k] = v`) updates the binding in place when
  the key exists and appends it otherwise (`setField`).
* JavaScript operations that throw a `TypeError` (spreading a non-iterable,
  assigning a property on a primitive in strict mode) are modelled by
  `Option`/`none`.  Assigning a named property on an *array* value also maps
  to `none` even though JavaScript permits it; no claim exercises that case.
* `[...new Set(l)]` is `setDedup l`: keep the first occurrence of each
  element, preserving insertion order.  JavaScript `SameValueZero` equality
  on the JSON values reachable here is structural equality (reference
  equality on distinct-but-equal freshly parsed objects is not modelled; the
  deduplicated lists in the code hold numbers and strings).
-/

namespace DevContainer

/-- JSON values, as produced by `JSON.parse` / `fs.readJson`. -/
inductive Json where
  | null : Json
  | bool : Bool → Json
  | num  : Int → Json
  | str  : String → Json
  | arr  : List Json → Json
  | obj  : List (String × Json) → Json

mutual

/-- Structural (SameValueZero-style) equality on JSON values. -/
def Json.beq : Json → Json → Bool
  | .null, .null => true
  | .bool a, .bool b => a == b
  | .num a, .num b => a == b
  | .str a, .str b => a == b
  | .arr a, .arr b => Json.beqL a b
  | .obj a, .obj b => Json.beqF a b
  | _, _ => false

def Json.beqL : List Json → List Json → Bool
  | [], [] => true
  | a :: as, b :: bs => Json.beq a b && Json.beqL as bs
  | _, _ => false

def Json.beqF : List (String × Json) → List (String × Json) → Bool
  | [], [] => true
  | (k, v) :: as, (k', v') :: bs => k == k' && Json.beq v v' && Json.beqF as bs
  | _, _ => false

end

mutual

theorem Json.beq_iff : ∀ a b : Json, (Json.beq a b = true) ↔ a = b
  | .null, .null => by simp [Json.beq]
  | .null, .bool _ => by simp [Json.beq]
  | .null, .num _ => by simp [Json.beq]
  | .null, .str _ => by simp [Json.beq]
  | .null, .arr _ => by simp [Json.beq]
  | .null, .obj _ => by simp [Json.beq]
  | .bool _, .null => by simp [Json.beq]
  | .bool x, .bool y => by simp [Json.beq]
  | .bool _, .num _ => by simp [Json.beq]
  | .bool _, .str _ => by simp [Json.beq]
  | .bool _, .arr _ => by simp [Json.beq]
  | .bool _, .obj _ => by simp [Json.beq]
  | .num _, .null => by simp [Json.beq]
  | .num _, .bool _ => by simp [Json.beq]
  | .num x, .num y => by simp [Json.beq]
  | .num _, .str _ => by simp [Json.beq]
  | .num _, .arr _ => by simp [Json.beq]
  | .num _, .obj _ => by simp [Json.beq]
  | .str _, .null => by simp [Json.beq]
  | .str _, .bool _ => by simp [Json.beq]
  | .str _, .num _ => by simp [Json.beq]
  | .str x, .str y => by simp [Json.beq]
  | .str _, .arr _ => by simp [Json.beq]
  | .str _, .obj _ => by simp [Json.beq]
  | .arr _, .null => by simp [Json.beq]
  | .arr _, .bool _ => by simp [Json.beq]
  | .arr _, .num _ => by simp [Json.beq]
  | .arr _, .str _ => by simp [Json.beq]
  | .arr xs, .arr ys => by
      simp only [Json.beq, Json.arr.injEq]
      exact Json.beqL_iff xs ys
  | .arr _, .obj _ => by simp [Json.beq]
  | .obj _, .null => by simp [Json.beq]
  | .obj _, .bool _ => by simp [Json.beq]
  | .obj _, .num _ => by simp [Json.beq]
  | .obj _, .str _ => by simp [Json.beq]
  | .obj _, .arr _ => by simp [Json.beq]
  | .obj xs, .obj ys => by
      simp only [Json.beq, Json.obj.injEq]
      exact Json.beqF_iff xs ys

theorem Json.beqL_iff : ∀ xs ys : List Json, (Json.beqL xs ys = true) ↔ xs = ys
  | [], [] => by simp [Json.beqL]
  | [], _ :: _ => by simp [Json.beqL]
  | _ :: _, [] => by simp [Json.beqL]
  | x :: xs, y :: ys => by
      simp only [Json.beqL, Bool.and_eq_true, List.cons.injEq]
      exact and_congr (Json.beq_iff x y) (Json.beqL_iff xs ys)

theorem Json.beqF_iff :
    ∀ xs ys : List (String × Json), (Json.beqF xs ys = true) ↔ xs = ys
  | [], [] => by simp [Json.beqF]
  | [], _ :: _ => by simp [Json.beqF]
  | _ :: _, [] => by simp [Json.beqF]
  | (k, v) :: xs, (k', v') :: ys => by
      simp only [Json.beqF, Bool.and_eq_true, List.cons.injEq, Prod.mk.injEq,
        beq_iff_eq]
      constructor
      · rintro ⟨⟨h1, h2⟩, h3⟩
        exact ⟨⟨h1, (Json.beq_iff v v').mp h2⟩, (Json.beqF_iff xs ys).mp h3⟩
      · rintro ⟨⟨h1, h2⟩, h3⟩
        exact ⟨⟨h1, (Json.beq_iff v v').mpr h2⟩, (Json.beqF_iff xs ys).mpr h3⟩

end

instance : DecidableEq Json := fun a b => decidable_of_iff _ (Json.beq_iff a b)

/-- The fields of a JSON object, in insertion order. -/
abbrev Fields := List (String × Json)

/-- Property read on an object: value of the first binding of `k`. -/
def lookupField : Fields → String → Option Json
  | [], _ => none
  | (k', v) :: rest, k => if k' = k then some v else lookupField rest k

/-- Property write `o[k] = v`: update the binding in place if the key is
present, append it otherwise. -/
def setField : Fields → String → Json → Fields
  | [], k, v => [(k, v)]
  | (k', v') :: rest, k, v =>
      if k' = k then (k, v) :: rest else (k', v') :: setField rest k v

/-- JavaScript truthiness of a JSON value. -/
def Json.truthy : Json → Bool
  | .null => false
  | .bool b => b
  | .num n => n ≠ 0
  | .str s => s ≠ ""
  | .arr _ => true
  | .obj _ => true

/-- Truthiness of a possibly-absent (`undefined`) property. -/
def truthyOpt : Option Json → Bool
  | none => false
  | some j => j.truthy

/-- Property read through a possibly-absent object: `o?.k` where reading a
property of a non-object JSON value yields `undefined`. -/
def lookupObj : Option Json → String → Option Json
  | some (Json.obj fs), k => lookupField fs k
  | _, _ => none

/-- `[...(x || [])]` — the spread of a possibly-absent value defaulted to an
empty array.  Falsy values give `[]`; arrays spread to their elements;
non-empty strings spread to their characters; spreading any other truthy
value throws (`none`). -/
def spreadOrEmpty : Option Json → Option (List Json)
  | none => some []
  | some Json.null => some []
  | some (Json.bool false) => some []
  | some (Json.bool true) => none
  | some (Json.num n) => if n = 0 then some [] else none
  | some (Json.str s) =>
      if s = "" then some []
      else some (s.data.map (fun c => Json.str (String.mk [c])))
  | some (Json.arr xs) => some xs
  | some (Json.obj _) => none

/-- `[...new Set l]` with the membership check made explicit: keep the first
occurrence of every element, in insertion order.  `seen` holds the elements
already emitted. -/
def setDedupAux {α : Type} [DecidableEq α] (seen : List α) : List α → List α
  | [] => []
  | x :: xs =>
      if x ∈ seen then setDedupAux seen xs
      else x :: setDedupAux (x :: seen) xs

/-- `[...new Set l]`. -/
def setDedup {α : Type} [DecidableEq α] (l : List α) : List α :=
  setDedupAux [] l

theorem mem_setDedupAux {α : Type} [DecidableEq α] (a : α) :
    ∀ (l seen : List α), a ∈ setDedupAux seen l ↔ a ∈ l ∧ a ∉ seen := by
  intro l
  induction l with
  | nil => intro seen; simp [setDedupAux]
  | cons x xs ih =>
      intro seen
      by_cases hx : x ∈ seen
      · simp only [setDedupAux, if_pos hx, ih, List.mem_cons]
        constructor
        · rintro ⟨h1, h2⟩; exact ⟨Or.inr h1, h2⟩
        · rintro ⟨h1 | h1, h2⟩
          · exact absurd (h1 ▸ hx) h2
          · exact ⟨h1, h2⟩
      · simp only [setDedupAux, if_neg hx, List.mem_cons, ih]
        constructor
        · rintro (rfl | ⟨h1, h2⟩)
          · exact ⟨Or.inl rfl, hx⟩
          · refine ⟨Or.inr h1, fun hc => h2 ?_⟩
            exact Or.inr hc
        · rintro ⟨rfl | h1, h2⟩
          · exact Or.inl rfl
          · by_cases hax : a = x
            · exact Or.inl hax
            · refine Or.inr ⟨h1, fun hc => ?_⟩
              rcases hc with hc1 | hc2
              · exact hax hc1
              · exact h2 hc2

theorem mem_setDedup {α : Type} [DecidableEq α] (a : α) (l : List α) :
    a ∈ setDedup l ↔ a ∈ l := by
  simp [setDedup, mem_setDedupAux]

theorem nodup_setDedupAux {α : Type} [DecidableEq α] :
    ∀ (l seen : List α), (setDedupAux seen l).Nodup := by
  intro l
  induction l with
  | nil => intro seen; simp [setDedupAux]
  | cons x xs ih =>
      intro seen
      by_cases hx : x ∈ seen
      · simpa [setDedupAux, if_pos hx] using ih seen
      · simp only [setDedupAux, if_neg hx, List.nodup_cons]
        refine ⟨fun hc => ?_, ih (x :: seen)⟩
        rw [mem_setDedupAux] at hc
        exact hc.2 (List.mem_cons_self x seen)

theorem nodup_setDedup {α : Type} [DecidableEq α] (l : List α) :
    (setDedup l).Nodup := nodup_setDedupAux l []

theorem lookupField_setField (fs : Fields) (k k' : String) (v : Json) :
    lookupField (setField fs k v) k' =
      if k' = k then some v else lookupField fs k' := by
  induction fs with
  | nil =>
      by_cases h : k' = k
      · subst h; simp [setField, lookupField]
      · have h' : ¬ k = k' := fun hc => h hc.symm
        simp [setField, lookupField, h, h']
  | cons p rest ih =>
      obtain ⟨k'', v''⟩ := p
      by_cases h1 : k'' = k
      · subst h1
        by_cases h2 : k' = k''
        · subst h2; simp [setField, lookupField]
        · have h2' : ¬ k'' = k' := fun hc => h2 hc.symm
          simp [setField, lookupField, h2, h2']
      · by_cases h2 : k'' = k'
        · subst h2
          simp [setField, lookupField, h1]
        · simp [setField, lookupField, h1, h2, ih]

/-! ## Prompt analysis (`ConfigGenerator.analyzePrompt`)

The regular expressions of `analyzePrompt` are embedded as executable
character scanners.  `portScan` implements the global scan of
`/\bport\s+(\d+)\b/gi` followed by `parseInt` of the digits of each match;
`bareScan` implements `/\b(\d{4,5})\b/g`; `testLit` implements
`/\blit\b/.test(s)` for one literal alternative `lit` of a detection
pattern. -/

/-- JavaScript `\w` (word character): ASCII letter, digit or underscore. -/
def isWordChar (c : Char) : Bool :=
  ('a' ≤ c && c ≤ 'z') || ('A' ≤ c && c ≤ 'Z') || ('0' ≤ c && c ≤ '9') || c == '_'

/-- JavaScript `\s` restricted to the ASCII range: space, tab, LF, CR, FF, VT. -/
def isSpaceChar (c : Char) : Bool :=
  c == ' ' || c == '\t' || c == '\n' || c == '\r' || c == '\x0c' || c == '\x0b'

/-- Numeric value of an ASCII digit. -/
def digitVal (c : Char) : Nat := c.toNat - 48

/-- `parseInt(ds, 10)` on a non-empty string of ASCII digits. -/
def digitsToNat (ds : List Char) : Nat := ds.foldl (fun n c => 10 * n + digitVal c) 0

/-- Scanner states for the global scan of `/\bport\s+(\d+)\b/i`.
`idle prevWord` is searching for a `\b`-anchored `port` (`prevWord` records
whether the previous character was a word character, which decides the `\b`);
`p1`–`p3` have matched a prefix `p`/`po`/`por`; `p4` has matched `port` and
expects `\s+`; `sp` is inside the `\s+` run; `dg acc` is inside the `\d+` run
with accumulated value `acc`.  A failed partial match falls back to `idle`:
no new match can start inside the consumed characters, because every
position there is preceded by a word character (no `\b`), except directly
after a space, which the `sp` state handles. -/
inductive PortScanState where
  | idle (prevWord : Bool)
  | p1 | p2 | p3 | p4
  | sp
  | dg (acc : Nat)

/-- One step of the `/\bport\s+(\d+)\b/i` scanner; the second component is a
completed match (the parsed number). -/
def portStep (st : PortScanState) (c : Char) : PortScanState × Option Nat :=
  match st with
  | .idle prevWord =>
      if !prevWord && c.toLower == 'p' then (.p1, none)
      else (.idle (isWordChar c), none)
  | .p1 => if c.toLower == 'o' then (.p2, none) else (.idle (isWordChar c), none)
  | .p2 => if c.toLower == 'r' then (.p3, none) else (.idle (isWordChar c), none)
  | .p3 => if c.toLower == 't' then (.p4, none) else (.idle (isWordChar c), none)
  | .p4 => if isSpaceChar c then (.sp, none) else (.idle (isWordChar c), none)
  | .sp =>
      if isSpaceChar c then (.sp, none)
      else if c.isDigit then (.dg (digitVal c), none)
      else if c.toLower == 'p' then (.p1, none)
      else (.idle (isWordChar c), none)
  | .dg acc =>
      if c.isDigit then (.dg (10 * acc + digitVal c), none)
      else if isWordChar c then (.idle true, none)
      else (.idle false, some acc)

/-- Run the `port` scanner over the rest of the text.  At the end of the
text a pending digit run is a match (`\b` holds at end of input). -/
def portScanAux : PortScanState → List Char → List Nat
  | st, [] => match st with | .dg acc => [acc] | _ => []
  | st, c :: cs =>
      match portStep st c with
      | (st', some n) => n :: portScanAux st' cs
      | (st', none) => portScanAux st' cs

/-- All numbers of `prompt.match(/\bport\s+(\d+)\b/gi)`, each reduced to its
digits and parsed (`match.replace(/\D/g, '') |> parseInt`). -/
def portScan (l : List Char) : List Nat := portScanAux (.idle false) l

/-- Scanner states for `/\b(\d{4,5})\b/g`: a match is exactly a maximal
word-character run that consists solely of 4 or 5 digits.  `out`: previous
character was not a word character; `inDigits len acc`: inside a word run
that so far is `len` digits with value `acc`; `inWord`: inside a word run
that contains a non-digit word character. -/
inductive BareScanState where
  | out
  | inDigits (len : Nat) (acc : Nat)
  | inWord

/-- One step of the `/\b(\d{4,5})\b/g` scanner. -/
def bareStep (st : BareScanState) (c : Char) : BareScanState × Option Nat :=
  match st with
  | .out =>
      if c.isDigit then (.inDigits 1 (digitVal c), none)
      else if isWordChar c then (.inWord, none)
      else (.out, none)
  | .inDigits len acc =>
      if c.isDigit then (.inDigits (len + 1) (10 * acc + digitVal c), none)
      else if isWordChar c then (.inWord, none)
      else (.out, if len == 4 || len == 5 then some acc else none)
  | .inWord => if isWordChar c then (.inWord, none) else (.out, none)

/-- Run the bare-number scanner over the rest of the text. -/
def bareScanAux : BareScanState → List Char → List Nat
  | st, [] =>
      match st with
      | .inDigits len acc => if len == 4 || len == 5 then [acc] else []
      | _ => []
  | st, c :: cs =>
      match bareStep st c with
      | (st', some n) => n :: bareScanAux st' cs
      | (st', none) => bareScanAux st' cs

/-- All numbers of `prompt.match(/\b(\d{4,5})\b/g)`, parsed. -/
def bareScan (l : List Char) : List Nat := bareScanAux .out l

/-- Is the character at position `j` a word character (out of range counts
as a non-word character)? -/
def wordAt (s : List Char) (j : Nat) : Bool :=
  match s[j]? with
  | some c => isWordChar c
  | none => false

/-- Does `\b` hold at position `j` of `s`? -/
def boundaryAt (s : List Char) (j : Nat) : Bool :=
  (if j == 0 then false else wordAt s (j - 1)) != wordAt s j

/-- Does the literal `lit` occur at position `i` of `s`? -/
def litAt (s : List Char) (i : Nat) (lit : List Char) : Bool :=
  (s.drop i).take lit.length == lit

/-- `/\blit\b/.test(s)` for a literal `lit`. -/
def testLit (s : List Char) (lit : String) : Bool :=
  (List.range (s.length + 1)).any fun i =>
    litAt s i lit.data && boundaryAt s i && boundaryAt s (i + lit.data.length)

/-- `patterns.some(p => p.test(s))` where the single regex
`/\b(a₁|a₂|…)\b/` of each table entry is given by its list of literal
alternatives. -/
def testAlts (s : List Char) (alts : List String) : Bool := alts.any (testLit s)

/-- Language detection table of `analyzePrompt` (entry order as in the
source; `node\.?js` is expanded to its two spellings). -/
def languagePatterns : List (String × List String) :=
  [("javascript", ["javascript", "js", "nodejs", "node.js", "npm", "yarn"]),
   ("typescript", ["typescript", "ts"]),
   ("python", ["python", "py", "django", "flask", "fastapi", "pip"]),
   ("go", ["go", "golang"]),
   ("rust", ["rust", "cargo"]),
   ("java", ["java", "maven", "gradle", "spring"]),
   ("php", ["php", "composer", "laravel", "symfony"]),
   ("ruby", ["ruby", "rails", "gem", "bundler"]),
   ("csharp", ["c#", "csharp", ".net", "dotnet"]),
   ("cpp", ["c++", "cpp", "cmake"])]

/-- Framework detection table of `analyzePrompt`. -/
def frameworkPatterns : List (String × List String) :=
  [("react", ["react", "jsx", "nextjs", "next.js"]),
   ("angular", ["angular", "ng"]),
   ("vue", ["vue", "vuejs"]),
   ("express", ["express", "expressjs"]),
   ("django", ["django"]),
   ("flask", ["flask"]),
   ("fastapi", ["fastapi", "fast api"]),
   ("rails", ["rails", "ruby on rails"]),
   ("spring", ["spring", "springboot", "spring boot"]),
   ("gin", ["gin"]),
   ("fiber", ["fiber"]),
   ("actix", ["actix"]),
   ("rocket", ["rocket"])]

/-- Database detection table of `analyzePrompt`. -/
def databasePatterns : List (String × List String) :=
  [("postgresql", ["postgres", "postgresql", "psql"]),
   ("mysql", ["mysql"]),
   ("mongodb", ["mongo", "mongodb"]),
   ("redis", ["redis"]),
   ("sqlite", ["sqlite"]),
   ("elasticsearch", ["elasticsearch", "elastic"])]

/-- Tool detection table of `analyzePrompt`. -/
def toolPatterns : List (String × List String) :=
  [("docker", ["docker", "container"]),
   ("git", ["git", "github", "gitlab"]),
   ("vim", ["vim", "neovim", "nvim"]),
   ("zsh", ["zsh", "oh-my-zsh"]),
   ("curl", ["curl"]),
   ("wget", ["wget"]),
   ("jq", ["jq"])]

/-- The detection loop: keys whose pattern matches, in table order. -/
def detect (tbl : List (String × List String)) (low : List Char) : List String :=
  tbl.filterMap fun p => if testAlts low p.2 then some p.1 else none

/-- `s.toLowerCase()`. -/
def lowerStr (s : String) : String := String.mk (s.data.map Char.toLower)

/-- The result of `ConfigGenerator.analyzePrompt`. -/
structure PromptAnalysis where
  languages : List String
  frameworks : List String
  tools : List String
  databases : List String
  os : String
  ports : List Nat
  extensions : List String
  originalPrompt : String

/-- `ConfigGenerator.analyzePrompt`: detection tables run against the
lowercased prompt; the two port regexes run against the original prompt
(the keyword regex carries the `i` flag); the port lists are filtered to
`(0, 65535]` and `[3000, 9999]` respectively and their concatenation is
deduplicated; recommended extensions derive from the detected languages
and frameworks. -/
def analyzePrompt (prompt : String) : PromptAnalysis :=
  let low := prompt.data.map Char.toLower
  let languages := detect languagePatterns low
  let frameworks := detect frameworkPatterns low
  let databases := detect databasePatterns low
  let tools := detect toolPatterns low
  let ports := (portScan prompt.data).filter (fun p => 0 < p && p ≤ 65535)
  let standalonePorts := (bareScan prompt.data).filter (fun p => 3000 ≤ p && p ≤ 9999)
  let allPorts := setDedup (ports ++ standalonePorts)
  let os :=
    if testAlts low ["alpine", "alpine linux"] then "alpine"
    else if testAlts low ["debian"] then "debian"
    else "ubuntu"
  let extensions :=
    (if languages.contains "typescript" || languages.contains "javascript" then
       ["ms-vscode.vscode-typescript-next", "ms-vscode.vscode-eslint"] else []) ++
    (if languages.contains "python" then ["ms-python.python", "ms-python.pylint"] else []) ++
    (if languages.contains "go" then ["golang.go"] else []) ++
    (if languages.contains "rust" then ["rust-lang.rust-analyzer"] else []) ++
    (if frameworks.contains "react" then
       ["bradlc.vscode-tailwindcss", "esbenp.prettier-vscode"] else [])
  { languages := languages
    frameworks := frameworks
    tools := tools
    databases := databases
    os := os
    ports := allPorts
    extensions := setDedup extensions
    originalPrompt := prompt }

example : (analyzePrompt "runs on port 8080").ports = [8080] := by decide
example : (analyzePrompt "the app uses 3005 for http").ports = [3005] := by decide
example : (analyzePrompt "big value 99999 here").ports = [] := by decide
example : (analyzePrompt "just 50 items").ports = [] := by decide
example :
    (analyzePrompt "Node.js app on port 3000 with API on port 8080 and database on port 5432").ports
      = [3000, 8080, 5432] := by decide
example : (analyzePrompt "Python Django web application with PostgreSQL database").languages
      = ["python"] := by decide
example : (analyzePrompt "Python Django web application with PostgreSQL database").databases
      = ["postgresql"] := by decide

/-! ## The template catalog (`TemplateManager`) -/

/-- `DevContainerTemplate` of `template-manager.ts`. -/
structure DevContainerTemplate where
  name : String
  description : String
  languages : List String
  frameworks : List String
  features : List String
  category : String
  config : Fields
deriving DecidableEq

/-- Catalog entry `nodejs-typescript`. -/
def nodejsTypescriptTemplate : DevContainerTemplate :=
  { name := "nodejs-typescript"
    description := "Node.js development with TypeScript support"
    languages := ["javascript", "typescript"]
    frameworks := ["node", "express"]
    features := ["Node.js", "TypeScript", "ESLint", "Prettier"]
    category := "backend"
    config :=
      [("name", .str "Node.js & TypeScript Development"),
       ("image", .str "mcr.microsoft.com/devcontainers/typescript-node:18"),
       ("features", .obj [("ghcr.io/devcontainers/features/node:1",
          .obj [("version", .str "18")])]),
       ("customizations", .obj [("vscode", .obj [("extensions",
          .arr [.str "ms-vscode.vscode-typescript-next", .str "ms-vscode.vscode-eslint",
                .str "esbenp.prettier-vscode", .str "ms-vscode.vscode-json"])])]),
       ("forwardPorts", .arr [.num 3000]),
       ("postCreateCommand", .str "npm install"),
       ("remoteUser", .str "node")] }

/-- Catalog entry `python`. -/
def pythonTemplate : DevContainerTemplate :=
  { name := "python"
    description := "Python development with common packages and debugging"
    languages := ["python"]
    frameworks := ["django", "flask", "fastapi"]
    features := ["Python", "pip", "pytest", "Black"]
    category := "backend"
    config :=
      [("name", .str "Python Development"),
       ("image", .str "mcr.microsoft.com/devcontainers/python:3.11"),
       ("features", .obj [("ghcr.io/devcontainers/features/python:1",
          .obj [("version", .str "3.11")])]),
       ("customizations", .obj [("vscode", .obj [("extensions",
          .arr [.str "ms-python.python", .str "ms-python.pylint",
                .str "ms-python.black-formatter", .str "ms-python.isort"])])]),
       ("forwardPorts", .arr [.num 8000]),
       ("postCreateCommand", .str "pip install -r requirements.txt"),
       ("remoteUser", .str "vscode")] }

/-- Catalog entry `go`. -/
def goTemplate : DevContainerTemplate :=
  { name := "go"
    description := "Go development with standard tooling"
    languages := ["go"]
    frameworks := ["gin", "fiber", "echo"]
    features := ["Go", "go mod", "gofmt", "gopls"]
    category := "backend"
    config :=
      [("name", .str "Go Development"),
       ("image", .str "mcr.microsoft.com/devcontainers/go:1.21"),
       ("features", .obj [("ghcr.io/devcontainers/features/go:1",
          .obj [("version", .str "1.21")])]),
       ("customizations", .obj [("vscode", .obj [("extensions",
          .arr [.str "golang.go", .str "ms-vscode.vscode-json"])])]),
       ("forwardPorts", .arr [.num 8080]),
       ("postCreateCommand", .str "go mod download"),
       ("remoteUser", .str "vscode")] }

/-- Catalog entry `rust`. -/
def rustTemplate : DevContainerTemplate :=
  { name := "rust"
    description := "Rust environment with Cargo and debugging"
    languages := ["rust"]
    frameworks := ["actix", "rocket", "warp"]
    features := ["Rust", "Cargo", "rustfmt", "clippy"]
    category := "backend"
    config :=
      [("name", .str "Rust Development"),
       ("image", .str "mcr.microsoft.com/devcontainers/rust:1"),
       ("features", .obj [("ghcr.io/devcontainers/features/rust:1",
          .obj [("version", .str "latest")])]),
       ("customizations", .obj [("vscode", .obj [("extensions",
          .arr [.str "rust-lang.rust-analyzer", .str "vadimcn.vscode-lldb"])])]),
       ("forwardPorts", .arr [.num 8000]),
       ("postCreateCommand", .str "cargo build"),
       ("remoteUser", .str "vscode")] }

/-- Catalog entry `java`. -/
def javaTemplate : DevContainerTemplate :=
  { name := "java"
    description := "Java with Maven/Gradle support"
    languages := ["java"]
    frameworks := ["spring", "springboot", "maven", "gradle"]
    features := ["Java", "Maven", "Gradle", "JUnit"]
    category := "backend"
    config :=
      [("name", .str "Java Development"),
       ("image", .str "mcr.microsoft.com/devcontainers/java:17"),
       ("features", .obj [("ghcr.io/devcontainers/features/java:1",
          .obj [("version", .str "17"), ("installMaven", .bool true),
                ("installGradle", .bool true)])]),
       ("customizations", .obj [("vscode", .obj [("extensions",
          .arr [.str "vscjava.vscode-java-pack", .str "vmware.vscode-spring-boot"])])]),
       ("forwardPorts", .arr [.num 8080]),
       ("postCreateCommand", .str "mvn dependency:resolve"),
       ("remoteUser", .str "vscode")] }

/-- Catalog entry `php`. -/
def phpTemplate : DevContainerTemplate :=
  { name := "php"
    description := "PHP with Composer and debugging"
    languages := ["php"]
    frameworks := ["laravel", "symfony", "codeigniter"]
    features := ["PHP", "Composer", "Xdebug"]
    category := "backend"
    config :=
      [("name", .str "PHP Development"),
       ("image", .str "mcr.microsoft.com/devcontainers/php:8.2"),
       ("features", .obj [("ghcr.io/devcontainers/features/php:1",
          .obj [("version", .str "8.2")])]),
       ("customizations", .obj [("vscode", .obj [("extensions",
          .arr [.str "bmewburn.vscode-intelephense-client", .str "xdebug.php-debug"])])]),
       ("forwardPorts", .arr [.num 8000]),
       ("postCreateCommand", .str "composer install"),
       ("remoteUser", .str "vscode")] }

/-- Catalog entry `ruby`. -/
def rubyTemplate : DevContainerTemplate :=
  { name := "ruby"
    description := "Ruby with Rails support"
    languages := ["ruby"]
    frameworks := ["rails", "sinatra"]
    features := ["Ruby", "Rails", "Bundler", "RSpec"]
    category := "backend"
    config :=
      [("name", .str "Ruby Development"),
       ("image", .str "mcr.microsoft.com/devcontainers/ruby:3.2"),
       ("features", .obj [("ghcr.io/devcontainers/features/ruby:1",
          .obj [("version", .str "3.2")])]),
       ("customizations", .obj [("vscode", .obj [("extensions",
          .arr [.str "rebornix.ruby", .str "wingrunr21.vscode-ruby"])])]),
       ("forwardPorts", .arr [.num 3000]),
       ("postCreateCommand", .str "bundle install"),
       ("remoteUser", .str "vscode")] }

/-- Catalog entry `react`. -/
def reactTemplate : DevContainerTemplate :=
  { name := "react"
    description := "Modern React development stack"
    languages := ["javascript", "typescript"]
    frameworks := ["react", "next", "vite"]
    features := ["React", "TypeScript", "Vite", "ESLint"]
    category := "frontend"
    config :=
      [("name", .str "React Development"),
       ("image", .str "mcr.microsoft.com/devcontainers/typescript-node:18"),
       ("features", .obj [("ghcr.io/devcontainers/features/node:1",
          .obj [("version", .str "18")])]),
       ("customizations", .obj [("vscode", .obj [("extensions",
          .arr [.str "ms-vscode.vscode-typescript-next", .str "bradlc.vscode-tailwindcss",
                .str "esbenp.prettier-vscode", .str "ms-vscode.vscode-eslint",
                .str "ms-vscode.vscode-json"])])]),
       ("forwardPorts", .arr [.num 3000, .num 5173]),
       ("postCreateCommand", .str "npm install"),
       ("remoteUser", .str "node")] }

/-- Catalog entry `mean-stack`. -/
def meanStackTemplate : DevContainerTemplate :=
  { name := "mean-stack"
    description := "MongoDB, Express, Angular, Node.js stack"
    languages := ["javascript", "typescript"]
    frameworks := ["angular", "express", "mongodb"]
    features := ["Node.js", "Angular", "MongoDB", "Express"]
    category := "fullstack"
    config :=
      [("name", .str "MEAN Stack Development"),
       ("dockerComposeFile", .str "docker-compose.yml"),
       ("service", .str "app"),
       ("workspaceFolder", .str "/workspace"),
       ("features", .obj [("ghcr.io/devcontainers/features/node:1",
          .obj [("version", .str "18")])]),
       ("customizations", .obj [("vscode", .obj [("extensions",
          .arr [.str "ms-vscode.vscode-typescript-next", .str "angular.ng-template",
                .str "mongodb.mongodb-vscode"])])]),
       ("forwardPorts", .arr [.num 4200, .num 3000, .num 27017]),
       ("postCreateCommand", .str "npm install")] }

/-- Catalog entry `docker-compose`. -/
def dockerComposeTemplate : DevContainerTemplate :=
  { name := "docker-compose"
    description := "Multi-service development with Docker Compose"
    languages := ["javascript", "python", "go"]
    frameworks := ["microservices", "docker"]
    features := ["Docker", "Docker Compose", "Multi-service"]
    category := "fullstack"
    config :=
      [("name", .str "Docker Compose Development"),
       ("dockerComposeFile", .str "docker-compose.yml"),
       ("service", .str "app"),
       ("workspaceFolder", .str "/workspace"),
       ("shutdownAction", .str "stopCompose"),
       ("customizations", .obj [("vscode", .obj [("extensions",
          .arr [.str "ms-azuretools.vscode-docker",
                .str "ms-vscode-remote.remote-containers"])])]),
       ("forwardPorts", .arr [.num 3000, .num 8000, .num 5432]),
       ("postCreateCommand", .str "echo \"Multi-service environment ready\"")] }

/-- Catalog entry `universal` (the fallback template). -/
def universalTemplate : DevContainerTemplate :=
  { name := "universal"
    description := "Multi-language development environment"
    languages := ["javascript", "python", "go", "rust", "java"]
    frameworks := ["universal"]
    features := ["Multiple Languages", "Git", "Docker", "SSH"]
    category := "universal"
    config :=
      [("name", .str "Universal Development Environment"),
       ("image", .str "mcr.microsoft.com/devcontainers/universal:2"),
       ("features", .obj [("ghcr.io/devcontainers/features/docker-in-docker:2", .obj []),
          ("ghcr.io/devcontainers/features/git:1", .obj []),
          ("ghcr.io/devcontainers/features/github-cli:1", .obj [])]),
       ("customizations", .obj [("vscode", .obj [("extensions",
          .arr [.str "ms-vscode.vscode-json", .str "ms-azuretools.vscode-docker",
                .str "github.vscode-pull-request-github"])])]),
       ("forwardPorts", .arr [.num 3000, .num 8000, .num 8080]),
       ("postCreateCommand", .str "echo \"Universal environment ready\""),
       ("remoteUser", .str "codespace")] }

/-- The private `templates` array of `TemplateManager`, in declaration
order. -/
def templates : List DevContainerTemplate :=
  [nodejsTypescriptTemplate, pythonTemplate, goTemplate, rustTemplate, javaTemplate,
   phpTemplate, rubyTemplate, reactTemplate, meanStackTemplate, dockerComposeTemplate,
   universalTemplate]

/-- The raw match score of `findBestMatch` before the fallback penalty:
10 per input language contained (lowercased) in the descriptor's languages,
plus 5 per input framework contained in the descriptor's frameworks. -/
def rawScore (t : DevContainerTemplate) (langs fws : List String) : Int :=
  10 * (langs.countP fun l => t.languages.contains (lowerStr l) : Nat)
    + 5 * (fws.countP fun f => t.frameworks.contains (lowerStr f) : Nat)

/-- The effective score of a descriptor in `findBestMatch`: the raw score,
less 1 for the template named `universal`. -/
def scoreTemplate (t : DevContainerTemplate) (langs fws : List String) : Int :=
  rawScore t langs fws - (if t.name == "universal" then 1 else 0)

/-- The selection loop of `findBestMatch`: starting from
`bestMatch = null, bestScore = 0`, replace the running best on a strictly
larger score. -/
def bestLoop {α : Type} (sc : α → Int) (l : List α) (acc : Option α × Int) :
    Option α × Int :=
  l.foldl (fun acc t => if acc.2 < sc t then (some t, sc t) else acc) acc

/-- `TemplateManager.findBestMatch`: run the selection loop over the
catalog; if the final best score is 0, return the `universal` entry
(or `null` if absent). -/
def findBestMatch (langs fws : List String) : Option DevContainerTemplate :=
  let acc := bestLoop (scoreTemplate · langs fws) templates (none, 0)
  if acc.2 = 0 then templates.find? (fun t => t.name == "universal") else acc.1

/-- Modelled from the spec: "The descriptor with the strictly highest score
wins; if multiple descriptors tie for highest, the one encountered first in
catalog iteration order wins" — the first catalog entry whose score is
greatest. -/
def findBestMatchSpec (langs fws : List String) : Option DevContainerTemplate :=
  templates.find? fun t =>
    templates.all fun u => decide (scoreTemplate u langs fws ≤ scoreTemplate t langs fws)

example : findBestMatch ["rust"] ["actix"] = some rustTemplate := by decide
example : findBestMatch [] [] = some universalTemplate := by decide
example : findBestMatchSpec [] [] = some nodejsTypescriptTemplate := by decide
example : findBestMatch ["python"] ["django"] = some pythonTemplate := by decide

/-! ## Properties of the selection loop -/

theorem find?_congr_on {α : Type} {p q : α → Bool} :
    ∀ l : List α, (∀ x ∈ l, p x = q x) → l.find? p = l.find? q := by
  intro l
  induction l with
  | nil => intro _; rfl
  | cons x xs ih =>
      intro h
      have hx := h x (List.mem_cons_self x xs)
      rw [List.find?_cons, List.find?_cons, hx]
      cases hq : q x
      · exact ih fun y hy => h y (List.mem_cons_of_mem x hy)
      · rfl

theorem bestLoop_cons {α : Type} (sc : α → Int) (t : α) (ts : List α)
    (acc : Option α × Int) :
    bestLoop sc (t :: ts) acc =
      bestLoop sc ts (if acc.2 < sc t then (some t, sc t) else acc) := by
  by_cases hlt : acc.2 < sc t <;> simp [bestLoop, hlt]

theorem bestLoop_all_le {α : Type} (sc : α → Int) :
    ∀ (l : List α) (acc : Option α × Int), (∀ t ∈ l, sc t ≤ acc.2) →
      bestLoop sc l acc = acc := by
  intro l
  induction l with
  | nil => intro acc _; rfl
  | cons t ts ih =>
      intro acc h
      have ht : ¬ acc.2 < sc t := not_lt.mpr (h t (List.mem_cons_self t ts))
      rw [bestLoop_cons, if_neg ht]
      exact ih acc fun u hu => h u (List.mem_cons_of_mem t hu)

theorem bestLoop_isSome {α : Type} (sc : α → Int) :
    ∀ (l : List α) (acc : Option α × Int), acc.1.isSome →
      (bestLoop sc l acc).1.isSome := by
  intro l
  induction l with
  | nil => intro acc h; exact h
  | cons t ts ih =>
      intro acc h
      rw [bestLoop_cons]
      by_cases hlt : acc.2 < sc t
      · rw [if_pos hlt]
        exact ih (some t, sc t) rfl
      · rw [if_neg hlt]
        exact ih acc h

theorem bestLoop_none_snd {α : Type} (sc : α → Int) :
    ∀ (l : List α) (acc : Option α × Int), (bestLoop sc l acc).1 = none →
      (bestLoop sc l acc).2 = acc.2 := by
  intro l
  induction l with
  | nil => intro acc _; rfl
  | cons t ts ih =>
      intro acc h
      rw [bestLoop_cons] at h ⊢
      by_cases hlt : acc.2 < sc t
      · exfalso
        rw [if_pos hlt] at h
        have hs : (bestLoop sc ts ((some t, sc t) : Option α × Int)).1.isSome :=
          bestLoop_isSome sc ts (some t, sc t) rfl
        rw [h] at hs
        simp at hs
      · rw [if_neg hlt] at h ⊢
        exact ih acc h

/-- The selection loop returns the first element of `l` that scores
strictly above the initial score and at least as high as every element of
`l`, together with its score — provided such an element exists. -/
theorem bestLoop_find {α : Type} (sc : α → Int) :
    ∀ (l : List α) (acc : Option α × Int), (∃ t ∈ l, acc.2 < sc t) →
      ∃ u, l.find? (fun t => decide (acc.2 < sc t) &&
              l.all fun v => decide (sc v ≤ sc t)) = some u ∧
           bestLoop sc l acc = (some u, sc u) := by
  intro l
  induction l with
  | nil => rintro acc ⟨t, ht, _⟩; exact absurd ht (List.not_mem_nil t)
  | cons t ts ih =>
      intro acc hex
      have hstep_pos : acc.2 < sc t →
          bestLoop sc (t :: ts) acc = bestLoop sc ts (some t, sc t) := by
        intro hlt
        rw [bestLoop_cons, if_pos hlt]
      have hstep_neg : ¬ acc.2 < sc t →
          bestLoop sc (t :: ts) acc = bestLoop sc ts acc := by
        intro hlt
        rw [bestLoop_cons, if_neg hlt]
      by_cases hst : acc.2 < sc t
      · by_cases hv : ∃ v ∈ ts, sc t < sc v
        · obtain ⟨u, hfind, heq⟩ := ih (some t, sc t) (by simpa using hv)
          obtain ⟨v, hvmem, hvlt⟩ := hv
          refine ⟨u, ?_, by rw [hstep_pos hst]; exact heq⟩
          have hPt : (decide (acc.2 < sc t) &&
              (t :: ts).all fun w => decide (sc w ≤ sc t)) = false := by
            have : ¬ ((t :: ts).all fun w => decide (sc w ≤ sc t)) = true := by
              intro hall
              have := List.all_eq_true.mp hall v (List.mem_cons_of_mem t hvmem)
              exact absurd (of_decide_eq_true this) (not_le.mpr hvlt)
            simp only [Bool.not_eq_true] at this
            simp [this]
          rw [List.find?_cons, hPt]
          rw [find?_congr_on ts ?_]
          · exact hfind
          · intro x hx
            cases hall : ts.all fun w => decide (sc w ≤ sc x)
            · simp [List.all_cons, hall]
            · have hvx : sc v ≤ sc x :=
                of_decide_eq_true (List.all_eq_true.mp hall v hvmem)
              have htx : sc t < sc x := lt_of_lt_of_le hvlt hvx
              have hax : acc.2 < sc x := lt_trans hst htx
              simp [List.all_cons, hall, hax, le_of_lt htx, htx]
        · have hall : ∀ w ∈ ts, sc w ≤ sc t := by
            intro w hw
            by_contra hc
            exact hv ⟨w, hw, not_le.mp hc⟩
          have hloop : bestLoop sc ts ((some t, sc t) : Option α × Int) = (some t, sc t) :=
            bestLoop_all_le sc ts (some t, sc t) (by simpa using hall)
          refine ⟨t, ?_, by rw [hstep_pos hst, hloop]⟩
          have hPt : (decide (acc.2 < sc t) &&
              (t :: ts).all fun w => decide (sc w ≤ sc t)) = true := by
            simp only [Bool.and_eq_true, decide_eq_true_eq, List.all_eq_true]
            refine ⟨hst, fun w hw => ?_⟩
            rcases List.mem_cons.mp hw with rfl | hw'
            · exact le_refl _
            · exact hall w hw'
          rw [List.find?_cons, hPt]
      · have hex' : ∃ w ∈ ts, acc.2 < sc w := by
          obtain ⟨w, hwmem, hwlt⟩ := hex
          rcases List.mem_cons.mp hwmem with rfl | hw'
          · exact absurd hwlt hst
          · exact ⟨w, hw', hwlt⟩
        obtain ⟨u, hfind, heq⟩ := ih acc hex'
        refine ⟨u, ?_, by rw [hstep_neg hst]; exact heq⟩
        have hPt : (decide (acc.2 < sc t) &&
            (t :: ts).all fun w => decide (sc w ≤ sc t)) = false := by
          simp [hst]
        rw [List.find?_cons, hPt]
        rw [find?_congr_on ts ?_]
        · exact hfind
        · intro x hx
          cases hd : decide (acc.2 < sc x)
          · simp [hd]
          · have hax : acc.2 < sc x := of_decide_eq_true hd
            have htx : sc t ≤ sc x := le_trans (not_lt.mp hst) (le_of_lt hax)
            simp [List.all_cons, hd, htx]

/-! ## Claims C1, C2, C9 -/

/-- C1 (counterexample): on empty inputs every raw score is zero, so
`findBestMatch` takes the fallback branch and returns `universal`, while
the first descriptor tied for the highest score (0) is
`nodejs-typescript`; the claimed first-argmax rule therefore fails. -/
theorem findBestMatch_not_first_argmax :
    findBestMatch [] [] = some universalTemplate ∧
    findBestMatchSpec [] [] = some nodejsTypescriptTemplate ∧
    universalTemplate ≠ nodejsTypescriptTemplate := by
  refine ⟨by decide, by decide, by decide⟩

/-- C1 (amended): whenever some catalog descriptor's effective score is
strictly positive, `findBestMatch` returns the descriptor with the
strictly highest score — the scores being 10 per matched input language
plus 5 per matched input framework less the fixed penalty 1 for the
`universal` descriptor — with ties for highest resolved in favor of the
descriptor encountered first in catalog iteration order.  (When no score
is positive the fallback branch returns `universal` instead; see the
counterexample.) -/
theorem findBestMatch_eq_first_argmax (langs fws : List String)
    (h : ∃ t ∈ templates, 0 < scoreTemplate t langs fws) :
    findBestMatch langs fws = findBestMatchSpec langs fws := by
  obtain ⟨u, hfind, heq⟩ :=
    bestLoop_find (scoreTemplate · langs fws) templates (none, 0) (by simpa using h)
  have hPu := List.find?_some hfind
  simp only [Bool.and_eq_true, decide_eq_true_eq, List.all_eq_true] at hPu
  obtain ⟨h0u, hallu⟩ := hPu
  unfold findBestMatch
  rw [heq]
  have hne : ((some u, scoreTemplate u langs fws) :
      Option DevContainerTemplate × Int).2 ≠ 0 := ne_of_gt h0u
  rw [if_neg hne]
  show some u = _
  unfold findBestMatchSpec
  rw [← hfind]
  apply find?_congr_on
  intro x hx
  cases hall : templates.all fun v =>
      decide (scoreTemplate v langs fws ≤ scoreTemplate x langs fws)
  · simp [hall]
  · obtain ⟨t0, ht0mem, ht0pos⟩ := h
    have h0x : (0:Int) < scoreTemplate x langs fws :=
      lt_of_lt_of_le ht0pos (of_decide_eq_true (List.all_eq_true.mp hall t0 ht0mem))
    simp [hall, h0x]

/-- C1 (witness). -/
theorem findBestMatch_eq_first_argmax_witness :
    findBestMatch ["rust"] ["actix"] = findBestMatchSpec ["rust"] ["actix"] :=
  findBestMatch_eq_first_argmax ["rust"] ["actix"]
    ⟨rustTemplate, by decide, by decide⟩

/-- C2: if every catalog descriptor's raw score (before the fallback
penalty) is zero, `findBestMatch` returns the `universal` fallback; in
particular it does so on two empty input lists, and
`findBestMatch(["rust"], ["actix"])` returns the `rust` descriptor, never
the fallback. -/
theorem findBestMatch_fallback_on_zero :
    (∀ langs fws : List String, (∀ t ∈ templates, rawScore t langs fws = 0) →
        findBestMatch langs fws = some universalTemplate) ∧
    findBestMatch [] [] = some universalTemplate ∧
    findBestMatch ["rust"] ["actix"] = some rustTemplate := by
  refine ⟨?_, by decide, by decide⟩
  intro langs fws h
  have hle : ∀ t ∈ templates,
      scoreTemplate t langs fws ≤ ((none, 0) : Option DevContainerTemplate × Int).2 := by
    intro t ht
    unfold scoreTemplate
    rw [h t ht]
    split
    · norm_num
    · norm_num
  have hloop := bestLoop_all_le (scoreTemplate · langs fws) templates (none, 0) hle
  unfold findBestMatch
  rw [hloop]
  norm_num
  decide

/-- C2 (witness): inputs matching no catalog entry at all. -/
theorem findBestMatch_fallback_on_zero_witness :
    findBestMatch ["elm"] ["svelte"] = some universalTemplate :=
  findBestMatch_fallback_on_zero.1 ["elm"] ["svelte"] (by decide)

/-- C9: `findBestMatch` always returns a descriptor — the `null` branch is
unreachable because the built-in catalog contains the `universal`
fallback. -/
theorem findBestMatch_isSome (langs fws : List String) :
    (findBestMatch langs fws).isSome := by
  unfold findBestMatch
  by_cases h : (bestLoop (scoreTemplate · langs fws) templates (none, 0)).2 = 0
  · rw [if_pos h]
    rw [show templates.find? (fun t => t.name == "universal") = some universalTemplate
      from by decide]
    rfl
  · rw [if_neg h]
    rw [Option.isSome_iff_ne_none]
    intro hc
    exact h (bestLoop_none_snd _ templates (none, 0) hc)

/-! ## Configuration generation (`ConfigGenerator`)

`generateConfig` and `applyModifications` are sequences of in-place JSON
merges; each step below mirrors one block of the source.  A step returns
`none` exactly when the corresponding JavaScript block would throw a
`TypeError` (see the module comment). -/

/-- Port merge (`config.forwardPorts = [...new Set([...existing, ...ports])]`,
guarded by `analysis.ports.length > 0`). -/
def mergePorts (a : PromptAnalysis) (fs : Fields) : Option Fields :=
  if a.ports.isEmpty then some fs
  else
    match spreadOrEmpty (lookupField fs "forwardPorts") with
    | none => none
    | some existingPorts =>
        some (setField fs "forwardPorts"
          (Json.arr (setDedup (existingPorts ++ a.ports.map fun p => Json.num (p : Int)))))

/-- Innermost level of the extension merge, acting on the fields `v` of
the `customizations.vscode` object: ensure `extensions` is truthy
(`if (!…extensions) …extensions = []`), then
`…extensions = [...new Set([...(…extensions || []), ...analysis.extensions])]`. -/
def mergeExtensionsExt (a : PromptAnalysis) (v : Fields) : Option Fields :=
  let v1 := if truthyOpt (lookupField v "extensions") then v
            else setField v "extensions" (Json.arr [])
  match spreadOrEmpty (lookupField v1 "extensions") with
  | none => none
  | some existingExtensions =>
      some (setField v1 "extensions"
        (Json.arr (setDedup (existingExtensions ++ a.extensions.map Json.str))))

/-- Middle level of the extension merge, acting on the fields `c` of the
`customizations` object: ensure `vscode` is truthy, then update inside it
(a write into a primitive `vscode` value would throw). -/
def mergeExtensionsVscode (a : PromptAnalysis) (c : Fields) : Option Fields :=
  let c1 := if truthyOpt (lookupField c "vscode") then c
            else setField c "vscode" (Json.obj [])
  match lookupField c1 "vscode" with
  | some (Json.obj v) =>
      match mergeExtensionsExt a v with
      | none => none
      | some v2 => some (setField c1 "vscode" (Json.obj v2))
  | _ => none

/-- Extension merge: ensure `customizations`, `customizations.vscode` and
`customizations.vscode.extensions` exist (each `if (!x) x = ...` is a
truthiness test), then append-and-deduplicate the analysis extensions.
Guarded by `analysis.extensions.length > 0`; the nested property writes
are rendered level by level. -/
def mergeExtensions (a : PromptAnalysis) (fs : Fields) : Option Fields :=
  if a.extensions.isEmpty then some fs
  else
    let fs1 := if truthyOpt (lookupField fs "customizations") then fs
               else setField fs "customizations" (Json.obj [])
    match lookupField fs1 "customizations" with
    | some (Json.obj c) =>
        match mergeExtensionsVscode a c with
        | none => none
        | some c2 => some (setField fs1 "customizations" (Json.obj c2))
    | _ => none

/-- `if (!config.features) config.features = {}`. -/
def ensureFeatures (fs : Fields) : Fields :=
  if truthyOpt (lookupField fs "features") then fs
  else setField fs "features" (Json.obj [])

/-- The `switch (db)` of the database feature merge: the fixed feature
identifier of a supported database tag, `none` for every other tag. -/
def dbFeatureKey : String → Option String
  | "postgresql" => some "ghcr.io/devcontainers/features/postgres:1"
  | "mongodb" => some "ghcr.io/devcontainers/features/mongo:1"
  | "redis" => some "ghcr.io/devcontainers/features/redis:1"
  | _ => none

/-- Feature identifier added for the `docker` tool tag. -/
def dockerFeatureKey : String := "ghcr.io/devcontainers/features/docker-in-docker:2"

/-- Feature identifier added for the `git` tool tag. -/
def gitFeatureKey : String := "ghcr.io/devcontainers/features/git:1"

/-- Run `config.features[k] = {}` for each key in `keys` (in order).  When
`keys` is empty no assignment executes; otherwise the assignments require
`features` to hold an object (a primitive target would throw). -/
def assignFeatureKeys (fs : Fields) (keys : List String) : Option Fields :=
  if keys.isEmpty then some fs
  else
    match lookupField fs "features" with
    | some (Json.obj g) =>
        some (setField fs "features"
          (Json.obj (keys.foldl (fun g k => setField g k (Json.obj [])) g)))
    | _ => none

/-- All feature identifiers a given analysis causes to be assigned:
supported databases in order, then `docker`, then `git`. -/
def supportedFeatureKeys (a : PromptAnalysis) : List String :=
  a.databases.filterMap dbFeatureKey
    ++ (if a.tools.contains "docker" then [dockerFeatureKey] else [])
    ++ (if a.tools.contains "git" then [gitFeatureKey] else [])

/-- Feature merge of `applyModifications`: one guard
`databases.length > 0 || tools.length > 0`, one `ensure`, then all
assignments. -/
def mergeFeaturesPatch (a : PromptAnalysis) (fs : Fields) : Option Fields :=
  if a.databases.isEmpty && a.tools.isEmpty then some fs
  else assignFeatureKeys (ensureFeatures fs) (supportedFeatureKeys a)

/-- `ConfigGenerator.applyModifications`: deep-copy the document (pure
value), then merge ports, extensions and features in that order. -/
def applyModifications (config : Fields) (a : PromptAnalysis) : Option Fields :=
  (mergePorts a config).bind fun fs =>
    (mergeExtensions a fs).bind fun fs =>
      mergeFeaturesPatch a fs

/-- Feature merge of `generateConfig`: three separately-guarded blocks
(databases, `docker`, `git`), each with its own `ensure`. -/
def genFeatures (a : PromptAnalysis) (fs : Fields) : Option Fields :=
  (if a.databases.isEmpty then some fs
   else assignFeatureKeys (ensureFeatures fs) (a.databases.filterMap dbFeatureKey)).bind
  fun fs =>
    (if a.tools.contains "docker" then assignFeatureKeys (ensureFeatures fs) [dockerFeatureKey]
     else some fs).bind
    fun fs =>
      if a.tools.contains "git" then assignFeatureKeys (ensureFeatures fs) [gitFeatureKey]
      else some fs

/-- `s.charAt(0).toUpperCase() + s.slice(1)`. -/
def capFirst (s : String) : String :=
  match s.data with
  | [] => ""
  | c :: cs => String.mk (c.toUpper :: cs)

/-- Name update of `generateConfig`: when any language or framework was
detected, `config.name` becomes the capitalized first three detected
technologies joined by `" & "`, suffixed `" Development"`. -/
def updateName (a : PromptAnalysis) (fs : Fields) : Fields :=
  if a.languages.isEmpty && a.frameworks.isEmpty then fs
  else
    let techStack := (a.languages ++ a.frameworks).take 3
    setField fs "name"
      (Json.str (String.intercalate " & " (techStack.map capFirst) ++ " Development"))

/-- The body of `ConfigGenerator.generateConfig` applied to the deep copy
of a base configuration document: ports, extensions, features, name. -/
def generateConfigCore (base : Fields) (a : PromptAnalysis) : Option Fields :=
  (mergePorts a base).bind fun fs =>
    (mergeExtensions a fs).bind fun fs =>
      (genFeatures a fs).map fun fs => updateName a fs

/-- `ConfigGenerator.generateConfig`: deep-copy `template.config`
(`JSON.parse(JSON.stringify(...))`, a fresh value) and apply the merges. -/
def generateConfig (template : DevContainerTemplate) (a : PromptAnalysis) : Option Fields :=
  generateConfigCore template.config a

/-- Heap-level rendering of `generateConfig` for the aliasing claim: the
catalog's configuration documents live in a heap of cells addressed by
index, a template's `config` being the cell `ref`.
`JSON.parse(JSON.stringify(template.config))` allocates a *fresh* cell
holding a copy of the cell's contents, all subsequent property writes of
`generateConfig` hit the fresh cell only, and the result is the fresh
cell's final contents together with the extended heap. -/
def generateConfigH (heap : List Fields) (ref : Nat) (a : PromptAnalysis) :
    Option (Fields × List Fields) :=
  match heap[ref]? with
  | none => none
  | some base =>
      match generateConfigCore base a with
      | none => none
      | some out => some (out, heap ++ [out])

/-- Errors of `modifyConfiguration`: the explicit
`'No existing devcontainer.json found'` throw, and a `TypeError` escaping
from a merge step. -/
inductive ModifyError where
  | configNotFound
  | typeError
deriving DecidableEq

/-- The persisted-document store: parsed documents by path. -/
def lookupDoc : List (String × Fields) → String → Option Fields
  | [], _ => none
  | (p, d) :: rest, q => if p = q then some d else lookupDoc rest q

/-- `fs.writeJson path doc` on the store. -/
def setDoc : List (String × Fields) → String → Fields → List (String × Fields)
  | [], p, d => [(p, d)]
  | (p', d') :: rest, p, d =>
      if p' = p then (p, d) :: rest else (p', d') :: setDoc rest p d

/-- `path.join(workspaceRoot, '.devcontainer', 'devcontainer.json')`
(join modelled as plain concatenation with separators). -/
def configPathOf (workspaceRoot : String) : String :=
  workspaceRoot ++ "/.devcontainer/devcontainer.json"

/-- `ConfigGenerator.modifyConfiguration` over an explicit document store:
check existence first; on a missing document throw `configNotFound`
without touching the store; otherwise analyze the modification request,
apply the merges and persist the result.  The returned value is the
modified document (the `content` of the source's `GenerationResult`; the
accompanying reasoning strings are presentation only and not modelled). -/
def modifyConfiguration (files : List (String × Fields)) (workspaceRoot : String)
    (modifications : String) : Except ModifyError Fields × List (String × Fields) :=
  let configPath := configPathOf workspaceRoot
  match lookupDoc files configPath with
  | none => (Except.error ModifyError.configNotFound, files)
  | some existingConfig =>
      let analysis := analyzePrompt modifications
      match applyModifications existingConfig analysis with
      | none => (Except.error ModifyError.typeError, files)
      | some modifiedConfig =>
          (Except.ok modifiedConfig, setDoc files configPath modifiedConfig)

example :
    applyModifications [("forwardPorts", Json.arr [Json.num 3000])]
      { languages := [], frameworks := [], tools := [], databases := [],
        os := "ubuntu", ports := [8080], extensions := [], originalPrompt := "" }
      = some [("forwardPorts", Json.arr [Json.num 3000, Json.num 8080])] := by decide

/-! ## Frame and content lemmas for the merge steps -/

theorem lookupObj_of_not_truthy (o : Option Json) (k : String)
    (h : truthyOpt o = false) : lookupObj o k = none := by
  match o with
  | none => rfl
  | some Json.null => rfl
  | some (Json.bool b) => rfl
  | some (Json.num n) => rfl
  | some (Json.str s) => rfl
  | some (Json.arr xs) => rfl
  | some (Json.obj g) => simp [truthyOpt, Json.truthy] at h

theorem mergePorts_lookup (a : PromptAnalysis) (fs out : Fields)
    (h : mergePorts a fs = some out) (k : String) (hk : k ≠ "forwardPorts") :
    lookupField out k = lookupField fs k := by
  unfold mergePorts at h
  by_cases hp : a.ports.isEmpty
  · simp only [if_pos hp] at h; cases h; rfl
  · simp only [if_neg hp] at h
    cases hsp : spreadOrEmpty (lookupField fs "forwardPorts") with
    | none => simp only [hsp] at h; exact Option.noConfusion h
    | some ex =>
        simp only [hsp] at h
        cases h
        rw [lookupField_setField, if_neg hk]

theorem mergeExtensionsExt_frame (a : PromptAnalysis) (v v2 : Fields)
    (h : mergeExtensionsExt a v = some v2) (k : String) (hk : k ≠ "extensions") :
    lookupField v2 k = lookupField v k := by
  unfold mergeExtensionsExt at h
  by_cases ht : truthyOpt (lookupField v "extensions")
  · simp only [if_pos ht] at h
    cases hsp : spreadOrEmpty (lookupField v "extensions") with
    | none => simp only [hsp] at h; exact Option.noConfusion h
    | some ex =>
        simp only [hsp] at h
        cases h
        rw [lookupField_setField, if_neg hk]
  · simp only [if_neg ht] at h
    have hv1 : lookupField (setField v "extensions" (Json.arr []))
        "extensions" = some (Json.arr []) := by
      simp [lookupField_setField]
    simp only [hv1, spreadOrEmpty] at h
    cases h
    rw [lookupField_setField, if_neg hk, lookupField_setField, if_neg hk]

theorem mergeExtensionsVscode_spec (a : PromptAnalysis) (c c2 : Fields)
    (h : mergeExtensionsVscode a c = some c2) :
    (∀ k, k ≠ "vscode" → lookupField c2 k = lookupField c k) ∧
    (∀ k, k ≠ "extensions" →
        lookupObj (lookupField c2 "vscode") k = lookupObj (lookupField c "vscode") k) := by
  unfold mergeExtensionsVscode at h
  by_cases ht : truthyOpt (lookupField c "vscode")
  · simp only [if_pos ht] at h
    cases hcl : lookupField c "vscode" with
    | none => rw [hcl] at ht; simp [truthyOpt] at ht
    | some j =>
        cases j with
        | obj v =>
            simp only [hcl] at h
            cases hme : mergeExtensionsExt a v with
            | none => simp only [hme] at h; exact Option.noConfusion h
            | some v2' =>
                simp only [hme] at h
                cases h
                have hset : lookupField (setField c "vscode" (Json.obj v2'))
                    "vscode" = some (Json.obj v2') := by simp [lookupField_setField]
                constructor
                · intro k hk; rw [lookupField_setField, if_neg hk]
                · intro k hk
                  rw [hset]
                  show lookupField v2' k = lookupField v k
                  exact mergeExtensionsExt_frame a v v2' hme k hk
        | null => simp only [hcl] at h; exact Option.noConfusion h
        | bool b => simp only [hcl] at h; exact Option.noConfusion h
        | num n => simp only [hcl] at h; exact Option.noConfusion h
        | str s => simp only [hcl] at h; exact Option.noConfusion h
        | arr xs => simp only [hcl] at h; exact Option.noConfusion h
  · simp only [if_neg ht] at h
    have htf : truthyOpt (lookupField c "vscode") = false := by
      revert ht; cases truthyOpt (lookupField c "vscode") <;> simp
    have hc1 : lookupField (setField c "vscode" (Json.obj []))
        "vscode" = some (Json.obj []) := by simp [lookupField_setField]
    simp only [hc1] at h
    cases hme : mergeExtensionsExt a ([] : Fields) with
    | none => simp only [hme] at h; exact Option.noConfusion h
    | some v2' =>
        simp only [hme] at h
        cases h
        constructor
        · intro k hk
          rw [lookupField_setField, if_neg hk, lookupField_setField, if_neg hk]
        · intro k hk
          have hset : lookupField (setField (setField c "vscode" (Json.obj []))
              "vscode" (Json.obj v2')) "vscode" = some (Json.obj v2') := by
            simp [lookupField_setField]
          rw [hset, lookupObj_of_not_truthy _ _ htf]
          show lookupField v2' k = none
          rw [mergeExtensionsExt_frame a [] v2' hme k hk]
          rfl

theorem mergeExtensions_spec (a : PromptAnalysis) (fs out : Fields)
    (h : mergeExtensions a fs = some out) :
    (∀ k, k ≠ "customizations" → lookupField out k = lookupField fs k) ∧
    (∀ k, k ≠ "vscode" →
        lookupObj (lookupField out "customizations") k
          = lookupObj (lookupField fs "customizations") k) ∧
    (∀ k, k ≠ "extensions" →
        lookupObj (lookupObj (lookupField out "customizations") "vscode") k
          = lookupObj (lookupObj (lookupField fs "customizations") "vscode") k) := by
  unfold mergeExtensions at h
  by_cases he : a.extensions.isEmpty
  · simp only [if_pos he] at h; cases h
    exact ⟨fun _ _ => rfl, fun _ _ => rfl, fun _ _ => rfl⟩
  · simp only [if_neg he] at h
    by_cases hc : truthyOpt (lookupField fs "customizations")
    · simp only [if_pos hc] at h
      cases hcl : lookupField fs "customizations" with
      | none => rw [hcl] at hc; simp [truthyOpt] at hc
      | some j =>
          cases j with
          | obj c =>
              simp only [hcl] at h
              cases hmv : mergeExtensionsVscode a c with
              | none => simp only [hmv] at h; exact Option.noConfusion h
              | some c2 =>
                  simp only [hmv] at h
                  cases h
                  obtain ⟨hv1, hv2⟩ := mergeExtensionsVscode_spec a c c2 hmv
                  have hset : lookupField (setField fs "customizations" (Json.obj c2))
                      "customizations" = some (Json.obj c2) := by
                    simp [lookupField_setField]
                  refine ⟨?_, ?_, ?_⟩
                  · intro k hk; rw [lookupField_setField, if_neg hk]
                  · intro k hk
                    rw [hset]
                    exact hv1 k hk
                  · intro k hk
                    rw [hset]
                    exact hv2 k hk
          | null => simp only [hcl] at h; exact Option.noConfusion h
          | bool b => simp only [hcl] at h; exact Option.noConfusion h
          | num n => simp only [hcl] at h; exact Option.noConfusion h
          | str s => simp only [hcl] at h; exact Option.noConfusion h
          | arr xs => simp only [hcl] at h; exact Option.noConfusion h
    · simp only [if_neg hc] at h
      have hcf : truthyOpt (lookupField fs "customizations") = false := by
        revert hc; cases truthyOpt (lookupField fs "customizations") <;> simp
      have hfs1 : lookupField (setField fs "customizations" (Json.obj []))
          "customizations" = some (Json.obj []) := by simp [lookupField_setField]
      simp only [hfs1] at h
      cases hmv : mergeExtensionsVscode a ([] : Fields) with
      | none => simp only [hmv] at h; exact Option.noConfusion h
      | some c2 =>
          simp only [hmv] at h
          cases h
          obtain ⟨hv1, hv2⟩ := mergeExtensionsVscode_spec a [] c2 hmv
          have hset : lookupField (setField (setField fs "customizations" (Json.obj []))
              "customizations" (Json.obj c2)) "customizations" = some (Json.obj c2) := by
            simp [lookupField_setField]
          refine ⟨?_, ?_, ?_⟩
          · intro k hk
            rw [lookupField_setField, if_neg hk, lookupField_setField, if_neg hk]
          · intro k hk
            rw [hset, lookupObj_of_not_truthy _ _ hcf]
            show lookupField c2 k = none
            rw [hv1 k hk]; rfl
          · intro k hk
            rw [hset, lookupObj_of_not_truthy _ "vscode" hcf]
            show lookupObj (lookupField c2 "vscode") k = lookupObj none k
            rw [hv2 k hk]
            rfl

theorem ensureFeatures_lookup (fs : Fields) (k : String) (hk : k ≠ "features") :
    lookupField (ensureFeatures fs) k = lookupField fs k := by
  unfold ensureFeatures
  by_cases ht : truthyOpt (lookupField fs "features")
  · rw [if_pos ht]
  · rw [if_neg ht, lookupField_setField, if_neg hk]

theorem ensureFeatures_isSome (fs : Fields) :
    (lookupField (ensureFeatures fs) "features").isSome := by
  unfold ensureFeatures
  by_cases ht : truthyOpt (lookupField fs "features")
  · rw [if_pos ht]
    cases hl : lookupField fs "features"
    · rw [hl] at ht; simp [truthyOpt] at ht
    · rfl
  · rw [if_neg ht, lookupField_setField]
    rfl

theorem ensureFeatures_view (fs : Fields) (k : String) :
    lookupObj (lookupField (ensureFeatures fs) "features") k
      = lookupObj (lookupField fs "features") k := by
  unfold ensureFeatures
  by_cases ht : truthyOpt (lookupField fs "features")
  · rw [if_pos ht]
  · have htf : truthyOpt (lookupField fs "features") = false := by
      revert ht; cases truthyOpt (lookupField fs "features") <;> simp
    rw [if_neg ht, lookupObj_of_not_truthy _ _ htf]
    have hset : lookupField (setField fs "features" (Json.obj []))
        "features" = some (Json.obj []) := by simp [lookupField_setField]
    rw [hset]
    rfl

theorem lookupField_foldl_assign (keys : List String) (g : Fields) (k : String) :
    lookupField (keys.foldl (fun g k => setField g k (Json.obj [])) g) k =
      if k ∈ keys then some (Json.obj []) else lookupField g k := by
  induction keys generalizing g with
  | nil => simp
  | cons k0 rest ih =>
      rw [List.foldl_cons, ih (setField g k0 (Json.obj [])), lookupField_setField]
      by_cases hr : k ∈ rest
      · simp [hr]
      · by_cases hk0 : k = k0
        · simp [hr, hk0]
        · simp [hr, hk0]

theorem assignFeatureKeys_lookup (fs : Fields) (keys : List String) (out : Fields)
    (h : assignFeatureKeys fs keys = some out) (k : String) (hk : k ≠ "features") :
    lookupField out k = lookupField fs k := by
  unfold assignFeatureKeys at h
  by_cases hkeys : keys.isEmpty
  · simp only [if_pos hkeys] at h; cases h; rfl
  · simp only [if_neg hkeys] at h
    cases hg : lookupField fs "features" with
    | none => simp only [hg] at h; exact Option.noConfusion h
    | some j =>
        cases j with
        | obj g =>
            simp only [hg] at h
            cases h
            rw [lookupField_setField, if_neg hk]
        | null => simp only [hg] at h; exact Option.noConfusion h
        | bool b => simp only [hg] at h; exact Option.noConfusion h
        | num n => simp only [hg] at h; exact Option.noConfusion h
        | str s => simp only [hg] at h; exact Option.noConfusion h
        | arr xs => simp only [hg] at h; exact Option.noConfusion h

theorem assignFeatureKeys_view (fs : Fields) (keys : List String) (out : Fields)
    (h : assignFeatureKeys fs keys = some out) (k : String) :
    lookupObj (lookupField out "features") k =
      if k ∈ keys then some (Json.obj [])
      else lookupObj (lookupField fs "features") k := by
  unfold assignFeatureKeys at h
  by_cases hkeys : keys.isEmpty
  · simp only [if_pos hkeys] at h; cases h
    rw [List.isEmpty_iff.mp hkeys]
    simp
  · simp only [if_neg hkeys] at h
    cases hg : lookupField fs "features" with
    | none => simp only [hg] at h; exact Option.noConfusion h
    | some j =>
        cases j with
        | obj g =>
            simp only [hg] at h
            cases h
            have hset : lookupField (setField fs "features"
                (Json.obj (keys.foldl (fun g k => setField g k (Json.obj [])) g)))
                "features" = some (Json.obj
                  (keys.foldl (fun g k => setField g k (Json.obj [])) g)) := by
              simp [lookupField_setField]
            rw [hset]
            show lookupField (keys.foldl (fun g k => setField g k (Json.obj [])) g) k = _
            rw [lookupField_foldl_assign]
            rfl
        | null => simp only [hg] at h; exact Option.noConfusion h
        | bool b => simp only [hg] at h; exact Option.noConfusion h
        | num n => simp only [hg] at h; exact Option.noConfusion h
        | str s => simp only [hg] at h; exact Option.noConfusion h
        | arr xs => simp only [hg] at h; exact Option.noConfusion h

theorem assignFeatureKeys_isSome (fs : Fields) (keys : List String) (out : Fields)
    (h : assignFeatureKeys (ensureFeatures fs) keys = some out) :
    (lookupField out "features").isSome := by
  unfold assignFeatureKeys at h
  by_cases hkeys : keys.isEmpty
  · simp only [if_pos hkeys] at h; cases h; exact ensureFeatures_isSome fs
  · simp only [if_neg hkeys] at h
    cases hg : lookupField (ensureFeatures fs) "features" with
    | none => simp only [hg] at h; exact Option.noConfusion h
    | some j =>
        cases j with
        | obj g =>
            simp only [hg] at h
            cases h
            rw [lookupField_setField]
            rfl
        | null => simp only [hg] at h; exact Option.noConfusion h
        | bool b => simp only [hg] at h; exact Option.noConfusion h
        | num n => simp only [hg] at h; exact Option.noConfusion h
        | str s => simp only [hg] at h; exact Option.noConfusion h
        | arr xs => simp only [hg] at h; exact Option.noConfusion h

theorem assignEnsure_view (fs : Fields) (keys : List String) (out : Fields)
    (h : assignFeatureKeys (ensureFeatures fs) keys = some out) (k : String) :
    lookupObj (lookupField out "features") k =
      if k ∈ keys then some (Json.obj [])
      else lookupObj (lookupField fs "features") k := by
  rw [assignFeatureKeys_view _ _ _ h k]
  by_cases hm : k ∈ keys
  · rw [if_pos hm, if_pos hm]
  · rw [if_neg hm, if_neg hm, ensureFeatures_view]

theorem mergeFeaturesPatch_lookup (a : PromptAnalysis) (fs out : Fields)
    (h : mergeFeaturesPatch a fs = some out) (k : String) (hk : k ≠ "features") :
    lookupField out k = lookupField fs k := by
  unfold mergeFeaturesPatch at h
  by_cases hg : a.databases.isEmpty && a.tools.isEmpty
  · simp only [if_pos hg] at h; cases h; rfl
  · simp only [if_neg hg] at h
    rw [assignFeatureKeys_lookup _ _ _ h k hk, ensureFeatures_lookup fs k hk]

theorem supportedFeatureKeys_nil (a : PromptAnalysis)
    (hd : a.databases = []) (ht : a.tools = []) : supportedFeatureKeys a = [] := by
  unfold supportedFeatureKeys
  rw [hd, ht]
  rfl

theorem mergeFeaturesPatch_view (a : PromptAnalysis) (fs out : Fields)
    (h : mergeFeaturesPatch a fs = some out) (k : String) :
    lookupObj (lookupField out "features") k =
      if k ∈ supportedFeatureKeys a then some (Json.obj [])
      else lookupObj (lookupField fs "features") k := by
  unfold mergeFeaturesPatch at h
  by_cases hg : a.databases.isEmpty && a.tools.isEmpty
  · simp only [if_pos hg] at h; cases h
    obtain ⟨hd, ht⟩ : a.databases.isEmpty = true ∧ a.tools.isEmpty = true := by
      simpa using hg
    rw [supportedFeatureKeys_nil a (List.isEmpty_iff.mp hd) (List.isEmpty_iff.mp ht)]
    simp
  · simp only [if_neg hg] at h
    exact assignEnsure_view fs _ out h k

theorem genFeatures_lookup (a : PromptAnalysis) (fs out : Fields)
    (h : genFeatures a fs = some out) (k : String) (hk : k ≠ "features") :
    lookupField out k = lookupField fs k := by
  unfold genFeatures at h
  obtain ⟨fs1, h1, h23⟩ := Option.bind_eq_some.mp h
  obtain ⟨fs2, h2, h3⟩ := Option.bind_eq_some.mp h23
  have e1 : lookupField fs1 k = lookupField fs k := by
    by_cases hd : a.databases.isEmpty
    · simp only [if_pos hd] at h1; cases h1; rfl
    · simp only [if_neg hd] at h1
      rw [assignFeatureKeys_lookup _ _ _ h1 k hk, ensureFeatures_lookup fs k hk]
  have e2 : lookupField fs2 k = lookupField fs1 k := by
    by_cases hd : a.tools.contains "docker"
    · simp only [if_pos hd] at h2
      rw [assignFeatureKeys_lookup _ _ _ h2 k hk, ensureFeatures_lookup fs1 k hk]
    · simp only [if_neg hd] at h2; cases h2; rfl
  have e3 : lookupField out k = lookupField fs2 k := by
    by_cases hd : a.tools.contains "git"
    · simp only [if_pos hd] at h3
      rw [assignFeatureKeys_lookup _ _ _ h3 k hk, ensureFeatures_lookup fs2 k hk]
    · simp only [if_neg hd] at h3; cases h3; rfl
  rw [e3, e2, e1]

theorem genFeatures_view (a : PromptAnalysis) (fs out : Fields)
    (h : genFeatures a fs = some out) (k : String) :
    lookupObj (lookupField out "features") k =
      if k ∈ supportedFeatureKeys a then some (Json.obj [])
      else lookupObj (lookupField fs "features") k := by
  unfold genFeatures at h
  obtain ⟨fs1, h1, h23⟩ := Option.bind_eq_some.mp h
  obtain ⟨fs2, h2, h3⟩ := Option.bind_eq_some.mp h23
  have e1 : ∀ k, lookupObj (lookupField fs1 "features") k =
      if k ∈ a.databases.filterMap dbFeatureKey then some (Json.obj [])
      else lookupObj (lookupField fs "features") k := by
    intro k
    by_cases hd : a.databases.isEmpty
    · simp only [if_pos hd] at h1; cases h1
      rw [List.isEmpty_iff.mp hd]
      simp
    · simp only [if_neg hd] at h1
      exact assignEnsure_view fs _ fs1 h1 k
  have e2 : ∀ k, lookupObj (lookupField fs2 "features") k =
      if k ∈ (if a.tools.contains "docker" then [dockerFeatureKey] else []) then
        some (Json.obj [])
      else lookupObj (lookupField fs1 "features") k := by
    intro k
    by_cases hd : a.tools.contains "docker"
    · simp only [if_pos hd] at h2 ⊢
      exact assignEnsure_view fs1 _ fs2 h2 k
    · simp only [if_neg hd] at h2 ⊢; cases h2; simp
  have e3 : ∀ k, lookupObj (lookupField out "features") k =
      if k ∈ (if a.tools.contains "git" then [gitFeatureKey] else []) then
        some (Json.obj [])
      else lookupObj (lookupField fs2 "features") k := by
    intro k
    by_cases hd : a.tools.contains "git"
    · simp only [if_pos hd] at h3 ⊢
      exact assignEnsure_view fs2 _ out h3 k
    · simp only [if_neg hd] at h3 ⊢; cases h3; simp
  rw [e3 k]
  unfold supportedFeatureKeys
  by_cases hk3 : k ∈ (if a.tools.contains "git" then [gitFeatureKey] else [])
  · rw [if_pos hk3, if_pos (List.mem_append.mpr (Or.inr hk3))]
  · rw [if_neg hk3, e2 k]
    by_cases hk2 : k ∈ (if a.tools.contains "docker" then [dockerFeatureKey] else [])
    · rw [if_pos hk2, if_pos
        (List.mem_append.mpr (Or.inl (List.mem_append.mpr (Or.inr hk2))))]
    · rw [if_neg hk2, e1 k]
      by_cases hk1 : k ∈ a.databases.filterMap dbFeatureKey
      · rw [if_pos hk1, if_pos
          (List.mem_append.mpr (Or.inl (List.mem_append.mpr (Or.inl hk1))))]
      · rw [if_neg hk1, if_neg (by
          intro hc
          rcases List.mem_append.mp hc with hc1 | hc2
          · rcases List.mem_append.mp hc1 with hc3 | hc4
            · exact hk1 hc3
            · exact hk2 hc4
          · exact hk3 hc2)]

theorem updateName_lookup (a : PromptAnalysis) (fs : Fields) (k : String)
    (hk : k ≠ "name") : lookupField (updateName a fs) k = lookupField fs k := by
  unfold updateName
  by_cases hg : a.languages.isEmpty && a.frameworks.isEmpty
  · rw [if_pos hg]
  · simp only [if_neg hg]
    rw [lookupField_setField, if_neg hk]

/-! ## Claims C3–C8, C10 -/

/-- An analysis that detected nothing (used to instantiate theorems at
concrete inputs). -/
def emptyAnalysis : PromptAnalysis :=
  { languages := [], frameworks := [], tools := [], databases := [],
    os := "ubuntu", ports := [], extensions := [], originalPrompt := "" }

/-- C4: the patched document differs from the input document only at the
merge-targeted paths `forwardPorts`, `customizations.vscode.extensions`
and `features`: every other top-level field, every non-`vscode` field of
`customizations`, and every non-`extensions` field of
`customizations.vscode` is preserved exactly. -/
theorem applyModifications_frame (cfg : Fields) (a : PromptAnalysis) (out : Fields)
    (h : applyModifications cfg a = some out) :
    (∀ k, k ≠ "forwardPorts" → k ≠ "customizations" → k ≠ "features" →
        lookupField out k = lookupField cfg k) ∧
    (∀ k, k ≠ "vscode" →
        lookupObj (lookupField out "customizations") k
          = lookupObj (lookupField cfg "customizations") k) ∧
    (∀ k, k ≠ "extensions" →
        lookupObj (lookupObj (lookupField out "customizations") "vscode") k
          = lookupObj (lookupObj (lookupField cfg "customizations") "vscode") k) := by
  unfold applyModifications at h
  obtain ⟨fs1, h1, h23⟩ := Option.bind_eq_some.mp h
  obtain ⟨fs2, h2, h3⟩ := Option.bind_eq_some.mp h23
  obtain ⟨e1, e2, e3⟩ := mergeExtensions_spec a fs1 fs2 h2
  refine ⟨?_, ?_, ?_⟩
  · intro k hk1 hk2 hk3
    rw [mergeFeaturesPatch_lookup a fs2 out h3 k hk3, e1 k hk2,
        mergePorts_lookup a cfg fs1 h1 k hk1]
  · intro k hk
    have hc : lookupField out "customizations" = lookupField fs2 "customizations" :=
      mergeFeaturesPatch_lookup a fs2 out h3 _ (by decide)
    have hp : lookupField fs1 "customizations" = lookupField cfg "customizations" :=
      mergePorts_lookup a cfg fs1 h1 _ (by decide)
    rw [hc, e2 k hk, hp]
  · intro k hk
    have hc : lookupField out "customizations" = lookupField fs2 "customizations" :=
      mergeFeaturesPatch_lookup a fs2 out h3 _ (by decide)
    have hp : lookupField fs1 "customizations" = lookupField cfg "customizations" :=
      mergePorts_lookup a cfg fs1 h1 _ (by decide)
    rw [hc, e3 k hk, hp]

/-- A concrete document for the frame witness. -/
def frameCfg : Fields :=
  [("name", Json.str "Test Development"),
   ("image", Json.str "mcr.microsoft.com/devcontainers/base:ubuntu"),
   ("forwardPorts", Json.arr [Json.num 3000]),
   ("remoteUser", Json.str "node")]

/-- A concrete analysis carrying a port and an extension. -/
def frameAnalysis : PromptAnalysis :=
  { emptyAnalysis with ports := [8080], extensions := ["ms-python.python"] }

/-- The patched frame witness document. -/
def frameOut : Fields := (applyModifications frameCfg frameAnalysis).getD []

/-- C4 (witness). -/
theorem applyModifications_frame_witness :
    lookupField frameOut "image" = lookupField frameCfg "image" :=
  (applyModifications_frame frameCfg frameAnalysis frameOut (by rfl)).1 "image"
    (by decide) (by decide) (by decide)

/-- An analysis whose database and tool tags are all unsupported. -/
def unsupportedAnalysis : PromptAnalysis :=
  { emptyAnalysis with
    databases := ["mysql", "sqlite", "elasticsearch"]
    tools := ["vim", "zsh", "curl", "wget", "jq"] }

/-- An analysis carrying exactly the supported database and tool tags. -/
def supportedAnalysis : PromptAnalysis :=
  { emptyAnalysis with
    databases := ["postgresql", "mongodb", "redis"]
    tools := ["docker", "git"] }

/-- C5: both the synthesis merge (`generateConfig`) and the patch merge
(`applyModifications`) change the features block only at the fixed
feature-identifier keys determined by the supported tags
(`postgresql`/`mongodb`/`redis` databases, `docker`/`git` tools), each
mapped to an empty options object; every other key of the features block
keeps its original binding, so unsupported tags never add an entry.  The
final two conjuncts evaluate the key mapping: all-unsupported tags yield
no keys; the supported tags yield exactly the five fixed keys. -/
theorem features_only_supported :
    (∀ (cfg : Fields) (a : PromptAnalysis) (out : Fields),
        applyModifications cfg a = some out → ∀ k,
        lookupObj (lookupField out "features") k =
          if k ∈ supportedFeatureKeys a then some (Json.obj [])
          else lookupObj (lookupField cfg "features") k) ∧
    (∀ (base : Fields) (a : PromptAnalysis) (out : Fields),
        generateConfigCore base a = some out → ∀ k,
        lookupObj (lookupField out "features") k =
          if k ∈ supportedFeatureKeys a then some (Json.obj [])
          else lookupObj (lookupField base "features") k) ∧
    supportedFeatureKeys unsupportedAnalysis = [] ∧
    supportedFeatureKeys supportedAnalysis =
      ["ghcr.io/devcontainers/features/postgres:1",
       "ghcr.io/devcontainers/features/mongo:1",
       "ghcr.io/devcontainers/features/redis:1",
       "ghcr.io/devcontainers/features/docker-in-docker:2",
       "ghcr.io/devcontainers/features/git:1"] := by
  refine ⟨?_, ?_, by rfl, by rfl⟩
  · intro cfg a out h k
    unfold applyModifications at h
    obtain ⟨fs1, h1, h23⟩ := Option.bind_eq_some.mp h
    obtain ⟨fs2, h2, h3⟩ := Option.bind_eq_some.mp h23
    rw [mergeFeaturesPatch_view a fs2 out h3 k,
        (mergeExtensions_spec a fs1 fs2 h2).1 "features" (by decide),
        mergePorts_lookup a cfg fs1 h1 "features" (by decide)]
  · intro base a out h k
    unfold generateConfigCore at h
    obtain ⟨fs1, h1, h23⟩ := Option.bind_eq_some.mp h
    obtain ⟨fs2, h2, h3⟩ := Option.bind_eq_some.mp h23
    obtain ⟨fs3, h3', rfl⟩ := Option.map_eq_some'.mp h3
    rw [updateName_lookup a fs3 "features" (by decide),
        genFeatures_view a fs2 fs3 h3' k,
        (mergeExtensions_spec a fs1 fs2 h2).1 "features" (by decide),
        mergePorts_lookup a base fs1 h1 "features" (by decide)]

/-- A concrete document with a pre-existing features block. -/
def c5Cfg : Fields := [("features", Json.obj [("existing", Json.obj [])])]

/-- The patched C5 witness document. -/
def c5Out : Fields := (applyModifications c5Cfg supportedAnalysis).getD []

/-- C5 (witness). -/
theorem features_only_supported_witness :
    lookupObj (lookupField c5Out "features") gitFeatureKey =
      if gitFeatureKey ∈ supportedFeatureKeys supportedAnalysis then some (Json.obj [])
      else lookupObj (lookupField c5Cfg "features") gitFeatureKey :=
  features_only_supported.1 c5Cfg supportedAnalysis c5Out (by rfl) gitFeatureKey

/-- A document whose `forwardPorts` already contains a duplicate. -/
def dupPortsDoc : Fields := [("forwardPorts", Json.arr [Json.num 3000, Json.num 3000])]

/-- C7 (counterexample): when the feature set carries no ports, the port
merge is skipped entirely, so a pre-existing duplicate in `forwardPorts`
survives; the patched `forwardPorts` list is not any duplicate-free set
union. -/
theorem forwardPorts_union_counterexample :
    applyModifications dupPortsDoc emptyAnalysis = some dupPortsDoc ∧
    lookupField dupPortsDoc "forwardPorts"
      = some (Json.arr [Json.num 3000, Json.num 3000]) ∧
    ¬ ([Json.num 3000, Json.num 3000] : List Json).Nodup := by
  refine ⟨by rfl, by rfl, by decide⟩

/-- C7 (amended): when the feature set's port list is non-empty, the
patched `forwardPorts` is a duplicate-free list that set-equals the union
of the document's existing forwarded ports and the feature set's ports;
in particular `[3000]` patched with `{8080}` yields exactly
`[3000, 8080]`.  (When the feature set has no ports the merge is skipped
and `forwardPorts` is left unchanged, duplicates included; see the
counterexample.) -/
theorem forwardPorts_union :
    (∀ (cfg : Fields) (a : PromptAnalysis) (ex : List Json) (out : Fields),
        (lookupField cfg "forwardPorts" = some (Json.arr ex) ∨
          (lookupField cfg "forwardPorts" = none ∧ ex = [])) →
        a.ports ≠ [] →
        applyModifications cfg a = some out →
        ∃ l, lookupField out "forwardPorts" = some (Json.arr l) ∧ l.Nodup ∧
          ∀ j, j ∈ l ↔ j ∈ ex ∨ j ∈ a.ports.map fun p => Json.num (p : Int)) ∧
    applyModifications [("forwardPorts", Json.arr [Json.num 3000])]
        { emptyAnalysis with ports := [8080] }
      = some [("forwardPorts", Json.arr [Json.num 3000, Json.num 8080])] := by
  refine ⟨?_, by rfl⟩
  intro cfg a ex out hex hp h
  unfold applyModifications at h
  obtain ⟨fs1, h1, h23⟩ := Option.bind_eq_some.mp h
  obtain ⟨fs2, h2, h3⟩ := Option.bind_eq_some.mp h23
  unfold mergePorts at h1
  have hpe : ¬ a.ports.isEmpty = true := by
    intro hc
    exact hp (List.isEmpty_iff.mp hc)
  rw [if_neg hpe] at h1
  have hspread : spreadOrEmpty (lookupField cfg "forwardPorts") = some ex := by
    rcases hex with hsome | ⟨hnone, rfl⟩
    · rw [hsome]; rfl
    · rw [hnone]; rfl
  simp only [hspread] at h1
  cases h1
  refine ⟨setDedup (ex ++ a.ports.map fun p => Json.num (p : Int)), ?_,
    nodup_setDedup _, ?_⟩
  · rw [mergeFeaturesPatch_lookup a fs2 out h3 "forwardPorts" (by decide),
        (mergeExtensions_spec a _ fs2 h2).1 "forwardPorts" (by decide)]
    simp [lookupField_setField]
  · intro j
    rw [mem_setDedup]
    exact List.mem_append

/-- C7 (witness): an existing singleton port list and one new port. -/
theorem forwardPorts_union_witness :
    ∃ l, lookupField ((applyModifications
          [("forwardPorts", Json.arr [Json.num 3000])]
          { emptyAnalysis with ports := [8080] }).getD []) "forwardPorts"
        = some (Json.arr l) ∧ l.Nodup ∧
        ∀ j, j ∈ l ↔ j ∈ [Json.num 3000] ∨
          j ∈ ([8080] : List Nat).map fun p => Json.num (p : Int) :=
  forwardPorts_union.1 [("forwardPorts", Json.arr [Json.num 3000])]
    { emptyAnalysis with ports := [8080] } [Json.num 3000] _
    (Or.inl (by rfl)) (by decide) (by rfl)

/-- C10: on a document without a features mapping, the patch merge creates
an empty features object whenever the analysis has any database or tool
tag, even when every tag is unsupported (so no entry is ever added to it);
the synthesis merge creates the features object exactly when the database
list is non-empty or a supported tool (`docker`/`git`) is present. -/
theorem features_created_when_requested :
    (∀ (cfg : Fields) (a : PromptAnalysis) (out : Fields),
        lookupField cfg "features" = none →
        ¬ (a.databases = [] ∧ a.tools = []) →
        supportedFeatureKeys a = [] →
        applyModifications cfg a = some out →
        lookupField out "features" = some (Json.obj [])) ∧
    (∀ (base : Fields) (a : PromptAnalysis) (out : Fields),
        lookupField base "features" = none →
        generateConfigCore base a = some out →
        ((lookupField out "features").isSome ↔
          (a.databases ≠ [] ∨ a.tools.contains "docker" = true ∨
           a.tools.contains "git" = true))) := by
  constructor
  · intro cfg a out hnone hguard hkeys h
    unfold applyModifications at h
    obtain ⟨fs1, h1, h23⟩ := Option.bind_eq_some.mp h
    obtain ⟨fs2, h2, h3⟩ := Option.bind_eq_some.mp h23
    have hfs2 : lookupField fs2 "features" = none := by
      rw [(mergeExtensions_spec a fs1 fs2 h2).1 "features" (by decide),
          mergePorts_lookup a cfg fs1 h1 "features" (by decide), hnone]
    unfold mergeFeaturesPatch at h3
    have hgb : ¬ (a.databases.isEmpty && a.tools.isEmpty) = true := by
      intro hc
      obtain ⟨hd, ht⟩ : a.databases.isEmpty = true ∧ a.tools.isEmpty = true := by
        simpa using hc
      exact hguard ⟨List.isEmpty_iff.mp hd, List.isEmpty_iff.mp ht⟩
    rw [if_neg hgb, hkeys] at h3
    unfold assignFeatureKeys at h3
    simp only [List.isEmpty_nil, if_pos] at h3
    cases h3
    unfold ensureFeatures
    have htf : ¬ truthyOpt (lookupField fs2 "features") = true := by
      rw [hfs2]
      simp [truthyOpt]
    rw [if_neg htf, lookupField_setField]
    rfl
  · intro base a out hnone h
    unfold generateConfigCore at h
    obtain ⟨fs1, h1, h23⟩ := Option.bind_eq_some.mp h
    obtain ⟨fs2, h2, h3⟩ := Option.bind_eq_some.mp h23
    obtain ⟨fs3, h3', rfl⟩ := Option.map_eq_some'.mp h3
    have hfs2 : lookupField fs2 "features" = none := by
      rw [(mergeExtensions_spec a fs1 fs2 h2).1 "features" (by decide),
          mergePorts_lookup a base fs1 h1 "features" (by decide), hnone]
    rw [updateName_lookup a fs3 "features" (by decide)]
    unfold genFeatures at h3'
    obtain ⟨u1, hb1, hrest⟩ := Option.bind_eq_some.mp h3'
    obtain ⟨u2, hb2, hb3⟩ := Option.bind_eq_some.mp hrest
    constructor
    · intro hsome
      by_contra hneg
      push_neg at hneg
      obtain ⟨hd, hdk, hgt⟩ := hneg
      have hd' : a.databases.isEmpty = true := by
        rw [List.isEmpty_iff]; exact hd
      rw [if_pos hd'] at hb1
      cases hb1
      have hdk' : ¬ a.tools.contains "docker" = true := by
        simpa using hdk
      rw [if_neg hdk'] at hb2
      cases hb2
      have hgt' : ¬ a.tools.contains "git" = true := by
        simpa using hgt
      rw [if_neg hgt'] at hb3
      cases hb3
      rw [hfs2] at hsome
      simp at hsome
    · intro hcond
      have step2 : (lookupField u1 "features").isSome →
          (lookupField u2 "features").isSome := by
        intro hu
        by_cases hdk : a.tools.contains "docker"
        · rw [if_pos hdk] at hb2
          exact assignFeatureKeys_isSome u1 _ u2 hb2
        · rw [if_neg hdk] at hb2
          cases hb2
          exact hu
      have step3 : (lookupField u2 "features").isSome →
          (lookupField fs3 "features").isSome := by
        intro hu
        by_cases hgt : a.tools.contains "git"
        · rw [if_pos hgt] at hb3
          exact assignFeatureKeys_isSome u2 _ fs3 hb3
        · rw [if_neg hgt] at hb3
          cases hb3
          exact hu
      rcases hcond with hd | hdk | hgt
      · have hd' : ¬ a.databases.isEmpty = true := by
          intro hc
          exact hd (List.isEmpty_iff.mp hc)
        rw [if_neg hd'] at hb1
        exact step3 (step2 (assignFeatureKeys_isSome fs2 _ u1 hb1))
      · have hu2 : (lookupField u2 "features").isSome := by
          rw [if_pos hdk] at hb2
          exact assignFeatureKeys_isSome u1 _ u2 hb2
        exact step3 hu2
      · rw [if_pos hgt] at hb3
        exact assignFeatureKeys_isSome u2 _ fs3 hb3

/-- A concrete document without a features mapping. -/
def c10Cfg : Fields := [("image", Json.str "mcr.microsoft.com/devcontainers/base:ubuntu")]

/-- An analysis with a single, unsupported tool tag. -/
def vimAnalysis : PromptAnalysis := { emptyAnalysis with tools := ["vim"] }

/-- The patched C10 witness document. -/
def c10Out : Fields := (applyModifications c10Cfg vimAnalysis).getD []

/-- C10 (witness). -/
theorem features_created_when_requested_witness :
    lookupField c10Out "features" = some (Json.obj []) :=
  features_created_when_requested.1 c10Cfg vimAnalysis c10Out (by rfl)
    (by decide) (by rfl) (by rfl)

/-- C6: `modifyConfiguration` on a workspace whose configuration path has
no persisted document fails with `configNotFound` and leaves the document
store completely unchanged — no document is created. -/
theorem modifyConfiguration_notFound (files : List (String × Fields))
    (root mods : String)
    (h : lookupDoc files (configPathOf root) = none) :
    modifyConfiguration files root mods =
      (Except.error ModifyError.configNotFound, files) := by
  unfold modifyConfiguration
  simp only [h]

/-- C6 (witness): an empty store. -/
theorem modifyConfiguration_notFound_witness :
    modifyConfiguration [] "." "Add PostgreSQL support" =
      (Except.error ModifyError.configNotFound, []) :=
  modifyConfiguration_notFound [] "." "Add PostgreSQL support" rfl

/-- C8: the deep copy makes `generateConfig` leave the catalog's stored
configuration untouched and makes successive builds independent: after
building first with `a1` and then with `a2` against the same catalog cell,
the cell's contents equal the original after both calls, and the second
result is exactly what building with `a2` against the untouched catalog
produces — nothing of `a1`'s ports or extensions leaks into it. -/
theorem generateConfigH_eq (heap : List Fields) (ref : Nat) (a : PromptAnalysis)
    (base out : Fields) (hb : heap[ref]? = some base)
    (hc : generateConfigCore base a = some out) :
    generateConfigH heap ref a = some (out, heap ++ [out]) := by
  unfold generateConfigH
  simp only [hb, hc]

theorem generateConfigH_inv (heap : List Fields) (ref : Nat) (a : PromptAnalysis)
    (r : Fields) (h' : List Fields) (h : generateConfigH heap ref a = some (r, h')) :
    ∃ base, heap[ref]? = some base ∧ generateConfigCore base a = some r ∧
      h' = heap ++ [r] := by
  unfold generateConfigH at h
  cases hbase : heap[ref]? with
  | none => rw [hbase] at h; exact Option.noConfusion h
  | some base =>
      simp only [hbase] at h
      cases hcore : generateConfigCore base a with
      | none => simp only [hcore] at h; exact Option.noConfusion h
      | some out =>
          simp only [hcore] at h
          cases h
          exact ⟨base, rfl, hcore, rfl⟩

theorem generateConfig_no_mutation (heap : List Fields) (ref : Nat)
    (a1 a2 : PromptAnalysis) (r1 r2 : Fields) (h1 h2 : List Fields)
    (hc1 : generateConfigH heap ref a1 = some (r1, h1))
    (hc2 : generateConfigH h1 ref a2 = some (r2, h2)) :
    h1[ref]? = heap[ref]? ∧ h2[ref]? = heap[ref]? ∧
    (generateConfigH heap ref a2).map Prod.fst = some r2 := by
  obtain ⟨base, hbase, hcore1, rfl⟩ := generateConfigH_inv heap ref a1 r1 h1 hc1
  have hlt : ref < heap.length := by
    by_contra hc
    rw [List.getElem?_eq_none (Nat.le_of_not_lt hc)] at hbase
    exact Option.noConfusion hbase
  have happ : (heap ++ [r1])[ref]? = heap[ref]? :=
    List.getElem?_append_left hlt
  obtain ⟨base2, hbase2, hcore2, rfl⟩ :=
    generateConfigH_inv (heap ++ [r1]) ref a2 r2 h2 hc2
  have hbb : base2 = base := by
    rw [happ, hbase] at hbase2
    injection hbase2 with hx
    exact hx.symm
  rw [hbb] at hcore2
  refine ⟨happ, ?_, ?_⟩
  · have hlt2 : ref < (heap ++ [r1]).length := by
      rw [List.length_append]
      exact Nat.lt_of_lt_of_le hlt (Nat.le_add_right _ _)
    rw [List.getElem?_append_left hlt2, happ]
  · rw [generateConfigH_eq heap ref a2 base r2 hbase hcore2]
    rfl

/-- The catalog cell for the C8 witness. -/
def c8Heap : List Fields := [[("name", Json.str "X")]]

/-- First build request: forward port 8081. -/
def c8A1 : PromptAnalysis := { emptyAnalysis with ports := [8081] }

/-- Second build request: forward port 9090. -/
def c8A2 : PromptAnalysis := { emptyAnalysis with ports := [9090] }

/-- Result of the first build. -/
def c8R1 : Fields := [("name", Json.str "X"), ("forwardPorts", Json.arr [Json.num 8081])]

/-- Result of the second build: no trace of the first request's port. -/
def c8R2 : Fields := [("name", Json.str "X"), ("forwardPorts", Json.arr [Json.num 9090])]

/-- C8 (witness). -/
theorem generateConfig_no_mutation_witness :
    (c8Heap ++ [c8R1])[0]? = c8Heap[0]? ∧
    ((c8Heap ++ [c8R1]) ++ [c8R2])[0]? = c8Heap[0]? ∧
    (generateConfigH c8Heap 0 c8A2).map Prod.fst = some c8R2 :=
  generateConfig_no_mutation c8Heap 0 c8A1 c8A2 c8R1 c8R2 (c8Heap ++ [c8R1])
    ((c8Heap ++ [c8R1]) ++ [c8R2]) (by rfl) (by rfl)

/-- C3: a port is extracted from a prompt exactly when it comes from the
keyword pass (`/\bport\s+(\d+)\b/gi`, value in `[1, 65535]`) or from the
bare-number pass (`/\b(\d{4,5})\b/g`, value in `[3000, 9999]`), the result
being the deduplicated union of the two passes; concretely, "port 8080"
yields 8080, a bare "3005" is included without the keyword, and bare
"99999" and "50" are excluded. -/
theorem analyzePrompt_ports_characterization :
    (∀ (s : String) (p : Nat),
        p ∈ (analyzePrompt s).ports ↔
          ((p ∈ portScan s.data ∧ 0 < p ∧ p ≤ 65535) ∨
           (p ∈ bareScan s.data ∧ 3000 ≤ p ∧ p ≤ 9999))) ∧
    8080 ∈ (analyzePrompt "runs on port 8080").ports ∧
    3005 ∈ (analyzePrompt "the app uses 3005 for http").ports ∧
    (analyzePrompt "big value 99999 here").ports = [] ∧
    (analyzePrompt "just 50 items").ports = [] := by
  refine ⟨?_, by decide, by decide, by decide, by decide⟩
  intro s p
  rw [show (analyzePrompt s).ports = setDedup
      (((portScan s.data).filter fun p => 0 < p && p ≤ 65535) ++
       ((bareScan s.data).filter fun p => 3000 ≤ p && p ≤ 9999)) from rfl]
  rw [mem_setDedup, List.mem_append, List.mem_filter, List.mem_filter]
  simp only [Bool.and_eq_true, decide_eq_true_eq]

end DevContainer
